import Mathlib

/-!
Shallow embedding of the xurl/turl transcript tooling:
the URI parser and timeline extractor of `turl-core`, and the subagent
correlator and session scanner of `xurl-core`.  JSON values decoded by
serde are modelled by the inductive `Json`; the decoding of embedded JSON
strings (serde_json::from_str on field contents) is abstracted as an
explicit `decode` oracle parameter.
-/

namespace Xurl

/-- JSON value model mirroring serde_json::Value.  Objects keep fields in
insertion order; `get?` returns the first binding of a key. -/
inductive Json where
  | null
  | bool (b : Bool)
  | num (n : Int)
  | str (s : String)
  | arr (elems : List Json)
  | obj (fields : List (String × Json))

/-- Value::get on an object (None for other shapes). -/
def Json.get? : Json → String → Option Json
  | .obj fields, key => fields.lookup key
  | _, _ => none

/-- Value::as_str. -/
def Json.asStr? : Json → Option String
  | .str s => some s
  | _ => none

/-- Value::as_bool. -/
def Json.asBool? : Json → Option Bool
  | .bool b => some b
  | _ => none

/-- Value::as_array. -/
def Json.asArr? : Json → Option (List Json)
  | .arr elems => some elems
  | _ => none

/-- Value::is_null. -/
def Json.isNull : Json → Bool
  | .null => true
  | _ => false

/-- value.get(key).and_then(Value::as_str). -/
def jstr (v : Json) (key : String) : Option String := (v.get? key).bind Json.asStr?

/-- value.get(key).and_then(Value::as_bool). -/
def jbool (v : Json) (key : String) : Option Bool := (v.get? key).bind Json.asBool?

/-- value.get(key).and_then(Value::as_array). -/
def jarr (v : Json) (key : String) : Option (List Json) := (v.get? key).bind Json.asArr?

/-! Section: Character and string helpers (char-level models of Rust str ops) -/

/-- Whitespace predicate used by str::trim. -/
def isWs (c : Char) : Bool := c.isWhitespace

/-- Char-level model of str::trim: drop whitespace from both ends. -/
def trimChars (l : List Char) : List Char :=
  ((l.dropWhile isWs).reverse.dropWhile isWs).reverse

/-- String-level trim. -/
def strTrim (s : String) : String := ⟨trimChars s.data⟩

/-- Vec::join / slice::join with a separator. -/
def joinSep (sep : String) : List String → String
  | [] => ""
  | [x] => x
  | x :: y :: xs => x ++ sep ++ joinSep sep (y :: xs)

/-- Uppercase-to-lowercase ASCII table (char::to_ascii_lowercase). -/
def lowerTable : List (Char × Char) :=
  [('A','a'),('B','b'),('C','c'),('D','d'),('E','e'),('F','f'),('G','g'),
   ('H','h'),('I','i'),('J','j'),('K','k'),('L','l'),('M','m'),('N','n'),
   ('O','o'),('P','p'),('Q','q'),('R','r'),('S','s'),('T','t'),('U','u'),
   ('V','v'),('W','w'),('X','x'),('Y','y'),('Z','z')]

/-- char::to_ascii_lowercase via the explicit A-Z table. -/
def asciiLowerChar (c : Char) : Char := (lowerTable.lookup c).getD c

/-- str::to_ascii_lowercase. -/
def asciiLower (s : String) : String := ⟨s.data.map asciiLowerChar⟩

/-- The 22 characters matched by the case-insensitive hex class [0-9a-f],
listed letters first. -/
def hexDigits : List Char :=
  ['a','A','b','B','c','C','d','D','e','E','f','F',
   '0','5','1','6','2','7','3','8','4','9']

/-- Case-insensitive hex digit test. -/
def isHexDigit (c : Char) : Bool := decide (c ∈ hexDigits)

/-- Lower-case hex digit test (for the lowercase-canonical property). -/
def lowerHexDigits : List Char :=
  ['a','b','c','d','e','f','0','5','1','6','2','7','3','8','4','9']

/-- Membership in [0-9a-f]. -/
def isLowerHexDigit (c : Char) : Bool := decide (c ∈ lowerHexDigits)

/-- Consume exactly `n` hex digits, returning the rest of the characters. -/
def chunkHex : Nat → List Char → Option (List Char)
  | 0, l => some l
  | _ + 1, [] => none
  | n + 1, c :: l => if isHexDigit c then chunkHex n l else none

/-- Consume a literal dash. -/
def dashThen : List Char → Option (List Char)
  | c :: rest => if c = '-' then some rest else none
  | [] => none

/-- Dash-separated hex runs of the given lengths, consuming the whole
input. -/
def hexRuns : List Nat → List Char → Bool
  | [], l => l.isEmpty
  | [n], l =>
    match chunkHex n l with
    | some r => r.isEmpty
    | none => false
  | n :: ns, l =>
    match chunkHex n l with
    | some r =>
      match dashThen r with
      | some r2 => hexRuns ns r2
      | none => false
    | none => false

/-- Anchored 8-4-4-4-12 hex UUID pattern over characters. -/
def uuidChars (l : List Char) : Bool := hexRuns [8, 4, 4, 4, 12] l

/-- SESSION_ID_RE: the case-insensitive UUID grammar of uri.rs. -/
def uuidShaped (s : String) : Bool := uuidChars s.data

/-- Lower-case variant of `chunkHex` (strictly [0-9a-f]). -/
def chunkLowerHex : Nat → List Char → Option (List Char)
  | 0, l => some l
  | _ + 1, [] => none
  | n + 1, c :: l => if isLowerHexDigit c then chunkLowerHex n l else none

/-- Dash-separated lowercase hex runs of the given lengths. -/
def hexRunsLower : List Nat → List Char → Bool
  | [], l => l.isEmpty
  | [n], l =>
    match chunkLowerHex n l with
    | some r => r.isEmpty
    | none => false
  | n :: ns, l =>
    match chunkLowerHex n l with
    | some r =>
      match dashThen r with
      | some r2 => hexRunsLower ns r2
      | none => false
    | none => false

/-- Anchored lowercase UUID pattern. -/
def lowerUuidChars (l : List Char) : Bool := hexRunsLower [8, 4, 4, 4, 12] l

/-- Lowercase UUID shape at string level. -/
def lowerUuidShaped (s : String) : Bool := lowerUuidChars s.data

/-- AMP_SESSION_ID_RE: `t-<uuid>`, case-insensitive. -/
def ampSessionShaped (s : String) : Bool :=
  match s.data with
  | c :: '-' :: rest => (c = 't' || c = 'T') && uuidChars rest
  | _ => false

/-- Char-level alphanumeric test for [0-9A-Za-z]. -/
def isAlphaNum (c : Char) : Bool := c.isDigit || (Char.isAlpha c)

/-- OPENCODE_SESSION_ID_RE: `ses_[0-9A-Za-z]+`. -/
def opencodeSessionShaped (s : String) : Bool :=
  match s.data with
  | 's' :: 'e' :: 's' :: '_' :: rest => !rest.isEmpty && rest.all isAlphaNum
  | _ => false

/-- str::split_once over character lists: split at the first occurrence of
the separator. -/
def splitOnceAux (sep : List Char) : List Char → Option (List Char × List Char)
  | [] => none
  | c :: rest =>
    if sep.isPrefixOf (c :: rest) then some ([], (c :: rest).drop sep.length)
    else
      match splitOnceAux sep rest with
      | some (left, right) => some (c :: left, right)
      | none => none

/-- str::split_once at string level. -/
def splitOnceStr (sep s : String) : Option (String × String) :=
  (splitOnceAux sep.data s.data).map (fun p => (⟨p.1⟩, ⟨p.2⟩))

/-- Char-level model of str::starts_with for a literal pattern. -/
def startsWithChars (s pat : String) : Bool := pat.data.isPrefixOf s.data

/-- Drop the first `n` characters of a string. -/
def dropChars (s : String) (n : Nat) : String := ⟨s.data.drop n⟩

/-! Section: turl-core/src/model.rs and uri.rs -/

/-- ProviderKind of turl-core (no Pi). -/
inductive ProviderKind where
  | amp
  | codex
  | claude
  | gemini
  | opencode
deriving DecidableEq, Repr

/-- Display impl of ProviderKind. -/
def ProviderKind.toStr : ProviderKind → String
  | .amp => "amp"
  | .codex => "codex"
  | .claude => "claude"
  | .gemini => "gemini"
  | .opencode => "opencode"

/-- ThreadUri of turl-core. -/
structure ThreadUri where
  provider : ProviderKind
  session_id : String
deriving DecidableEq, Repr

/-- ThreadUri::as_string. -/
def ThreadUri.as_string (u : ThreadUri) : String :=
  u.provider.toStr ++ "://" ++ u.session_id

/-- TurlError taxonomy (the variants the embedded code can produce). -/
inductive TurlError where
  | invalidUri (input : String)
  | unsupportedScheme (scheme : String)
  | invalidSessionId (id : String)
  | invalidJsonLine (path : String) (line : Nat)
deriving DecidableEq, Repr

/-- Codex deep-link handling: strip an optional `threads/` path segment
(only for the codex provider); other providers use the target verbatim. -/
def grammarId (p : ProviderKind) (target : String) : String :=
  match p with
  | .codex => if startsWithChars target "threads/" then dropChars target 8 else target
  | _ => target

/-- FromStr for ThreadUri (uri.rs lines 39-87). -/
def threadUriFromStr (input : String) : Except TurlError ThreadUri :=
  match splitOnceStr "://" input with
  | none => .error (.invalidUri input)
  | some (scheme, target) =>
    let provider? : Option ProviderKind :=
      if scheme = "amp" then some .amp
      else if scheme = "codex" then some .codex
      else if scheme = "claude" then some .claude
      else if scheme = "gemini" then some .gemini
      else if scheme = "opencode" then some .opencode
      else none
    match provider? with
    | none => .error (.unsupportedScheme scheme)
    | some provider =>
      let id := grammarId provider target
      match provider with
      | .amp =>
        if ampSessionShaped id then
          .ok ⟨.amp, "T-" ++ asciiLower (dropChars id 2)⟩
        else .error (.invalidSessionId id)
      | .codex =>
        if uuidShaped id then .ok ⟨.codex, asciiLower id⟩
        else .error (.invalidSessionId id)
      | .claude =>
        if uuidShaped id then .ok ⟨.claude, asciiLower id⟩
        else .error (.invalidSessionId id)
      | .gemini =>
        if uuidShaped id then .ok ⟨.gemini, asciiLower id⟩
        else .error (.invalidSessionId id)
      | .opencode =>
        if opencodeSessionShaped id then .ok ⟨.opencode, id⟩
        else .error (.invalidSessionId id)

/-! Section: turl-core/src/render.rs -/

/-- MessageRole (closed two-value enum). -/
inductive MessageRole where
  | user
  | assistant
deriving DecidableEq, Repr

/-- ThreadMessage. -/
structure ThreadMessage where
  role : MessageRole
  text : String
deriving DecidableEq, Repr

/-- TimelineEntry sum type. -/
inductive TimelineEntry where
  | message (m : ThreadMessage)
  | compact (summary : Option String)
deriving DecidableEq, Repr

/-- TOOL_TYPES constant (render.rs lines 9-16). -/
def TOOL_TYPES : List String :=
  ["tool_call", "tool_result", "tool_use",
   "function_call", "function_result", "function_response"]

/-- parse_role (render.rs lines 395-401). -/
def parse_role (role : String) : Option MessageRole :=
  if role = "user" then some .user
  else if role = "assistant" then some .assistant
  else none

/-- parse_gemini_role (render.rs lines 403-409). -/
def parse_gemini_role (role : String) : Option MessageRole :=
  if role = "user" then some .user
  else if role = "gemini" then some .assistant
  else none

/-- Does the item carry a `type` field listed in TOOL_TYPES? -/
def toolTyped (item : Json) : Bool :=
  match jstr item "type" with
  | some t => TOOL_TYPES.contains t
  | none => false

/-- The final `output_text` check of extract_text. -/
def itemChunksOut (item : Json) : List String :=
  match jstr item "output_text" with
  | some t => if strTrim t ≠ "" then [strTrim t] else []
  | none => []

/-- The trailing `input_text` / `output_text` checks of extract_text. -/
def itemChunksInOut (item : Json) : List String :=
  match jstr item "input_text" with
  | some t =>
    if strTrim t ≠ "" then [strTrim t] else itemChunksOut item
  | none => itemChunksOut item

/-- Fallback chain of extract_text for a non-string item: skip tool-typed
items, else try `text`, `input_text`, `output_text` fields in order. -/
def itemChunksFields (item : Json) : List String :=
  if toolTyped item then []
  else
    match jstr item "text" with
    | some t =>
      if strTrim t ≠ "" then [strTrim t] else itemChunksInOut item
    | none => itemChunksInOut item

/-- Chunks contributed by one content-array item in extract_text. -/
def itemChunks (item : Json) : List String :=
  match item.asStr? with
  | some t => if strTrim t ≠ "" then [strTrim t] else itemChunksFields item
  | none => itemChunksFields item

/-- Chunk accumulation over a content array, in document order. -/
def chunksOfItems : List Json → List String
  | [] => []
  | item :: rest => itemChunks item ++ chunksOfItems rest

/-- extract_text (render.rs lines 411-462). -/
def extract_text (content : Option Json) : String :=
  match content with
  | none => ""
  | some c =>
    match c.asStr? with
    | some t => t
    | none =>
      match c.asArr? with
      | none => ""
      | some items => joinSep "\n\n" (chunksOfItems items)

/-- Chunks contributed by one item in extract_amp_text (only `text` and
`thinking` typed parts contribute). -/
def ampItemChunks (item : Json) : List String :=
  match jstr item "type" with
  | none => []
  | some itemType =>
    if itemType = "text" then
      match jstr item "text" with
      | some t => if strTrim t ≠ "" then [strTrim t] else []
      | none => []
    else if itemType = "thinking" then
      match jstr item "thinking" with
      | some t => if strTrim t ≠ "" then [strTrim t] else []
      | none => []
    else []

/-- Chunk accumulation for extract_amp_text. -/
def ampChunksOfItems : List Json → List String
  | [] => []
  | item :: rest => ampItemChunks item ++ ampChunksOfItems rest

/-- extract_amp_text (render.rs lines 362-393). -/
def extract_amp_text (content : Option Json) : String :=
  match content.bind Json.asArr? with
  | none => ""
  | some items => joinSep "\n\n" (ampChunksOfItems items)

/-- Role string read by extract_codex_message for a response_item message
payload (payload.role). -/
def codexRoleStr (v : Json) : Option String :=
  if jstr v "type" = some "response_item" then
    match v.get? "payload" with
    | some payload =>
      if jstr payload "type" = some "message" then jstr payload "role" else none
    | none => none
  else none

/-- Is the record an event_msg with payload type agent_message? -/
def codexAgentMsg (v : Json) : Bool :=
  jstr v "type" = some "event_msg" &&
    ((v.get? "payload").bind (fun p => jstr p "type")) = some "agent_message"

/-- extract_codex_message (render.rs lines 199-244). -/
def extract_codex_message (v : Json) : Option ThreadMessage :=
  match jstr v "type" with
  | none => none
  | some recordType =>
    if recordType = "response_item" then
      match v.get? "payload" with
      | none => none
      | some payload =>
        match jstr payload "type" with
        | none => none
        | some payloadType =>
          if payloadType ≠ "message" then none
          else
            match jstr payload "role" with
            | none => none
            | some roleStr =>
              match parse_role roleStr with
              | none => none
              | some role =>
                let text := extract_text (payload.get? "content")
                if strTrim text = "" then none
                else some ⟨role, text⟩
    else
      if recordType = "event_msg" &&
          ((v.get? "payload").bind (fun p => jstr p "type")) = some "agent_message" then
        let text := (((v.get? "payload").bind (fun p => jstr p "message")).getD "")
        if strTrim text = "" then none
        else some ⟨.assistant, text⟩
      else none

/-- is_codex_compact_event (render.rs lines 258-271). -/
def is_codex_compact_event (v : Json) : Bool :=
  jstr v "type" = some "compacted" ||
    (jstr v "type" = some "event_msg" &&
      ((v.get? "payload").bind (fun p => jstr p "type")) = some "context_compacted")

/-- extract_codex_entry (render.rs lines 246-256). -/
def extract_codex_entry (v : Json) : Option TimelineEntry :=
  match extract_codex_message v with
  | some m => some (.message m)
  | none => if is_codex_compact_event v then some (.compact none) else none

/-- Role string used by extract_claude_message: message.role, with the
record type as fallback. -/
def claudeRoleStr (v : Json) : Option String :=
  match jstr v "type" with
  | none => none
  | some recordType =>
    if recordType ≠ "user" && recordType ≠ "assistant" then none
    else
      match v.get? "message" with
      | none => none
      | some message => (jstr message "role").orElse (fun _ => some recordType)

/-- extract_claude_message (render.rs lines 273-292). -/
def extract_claude_message (v : Json) : Option ThreadMessage :=
  match jstr v "type" with
  | none => none
  | some recordType =>
    if recordType ≠ "user" && recordType ≠ "assistant" then none
    else
      match v.get? "message" with
      | none => none
      | some message =>
        match (jstr message "role").orElse (fun _ => some recordType) with
        | none => none
        | some roleStr =>
          match parse_role roleStr with
          | none => none
          | some role =>
            let text := extract_text (message.get? "content")
            if strTrim text = "" then none
            else some ⟨role, text⟩

/-- is_claude_compact_boundary (render.rs lines 307-310). -/
def is_claude_compact_boundary (v : Json) : Bool :=
  jstr v "type" = some "system" && jstr v "subtype" = some "compact_boundary"

/-- is_claude_compact_summary (render.rs lines 312-318). -/
def is_claude_compact_summary (v : Json) : Bool :=
  jstr v "type" = some "user" && (jbool v "isCompactSummary").getD false

/-- extract_claude_entry (render.rs lines 294-305). -/
def extract_claude_entry (v : Json) : Option TimelineEntry :=
  if is_claude_compact_boundary v then some (.compact none)
  else if is_claude_compact_summary v then
    some (.compact ((extract_claude_message v).map ThreadMessage.text))
  else (extract_claude_message v).map TimelineEntry.message

/-- Text chunks of the opencode `parts` array (text/reasoning parts with
non-blank text). -/
def opencodePartChunks : List Json → List String
  | [] => []
  | part :: rest =>
    let tail := opencodePartChunks rest
    match jstr part "type" with
    | none => tail
    | some partType =>
      if partType ≠ "text" && partType ≠ "reasoning" then tail
      else
        match jstr part "text" with
        | some t => if strTrim t ≠ "" then strTrim t :: tail else tail
        | none => tail

/-- Role string read by extract_opencode_message (message.role). -/
def opencodeRoleStr (v : Json) : Option String :=
  if jstr v "type" = some "message" then
    (v.get? "message").bind (fun m => jstr m "role")
  else none

/-- extract_opencode_message (render.rs lines 320-360). -/
def extract_opencode_message (v : Json) : Option ThreadMessage :=
  match jstr v "type" with
  | none => none
  | some recordType =>
    if recordType ≠ "message" then none
    else
      match v.get? "message" with
      | none => none
      | some message =>
        match jstr message "role" with
        | none => none
        | some roleStr =>
          match parse_role roleStr with
          | none => none
          | some role =>
            let chunks := opencodePartChunks ((jarr v "parts").getD [])
            if chunks.isEmpty then none
            else some ⟨role, joinSep "\n\n" chunks⟩

/-- One message of the amp `messages` array (loop body of
extract_amp_messages, render.rs lines 134-156). -/
def ampMessageOf (message : Json) : Option ThreadMessage :=
  match (jstr message "role").bind parse_role with
  | none => none
  | some role =>
    let text := extract_amp_text (message.get? "content")
    if strTrim text = "" then none
    else some ⟨role, text⟩

/-- Message list of an amp thread document. -/
def extract_amp_messages (doc : Json) : List ThreadMessage :=
  ((jarr doc "messages").getD []).filterMap ampMessageOf

/-- One message of the gemini `messages` array (loop body of
extract_gemini_messages, render.rs lines 167-196). -/
def geminiMessageOf (message : Json) : Option ThreadMessage :=
  match (jstr message "type").bind parse_gemini_role with
  | none => none
  | some role =>
    let text :=
      let display := extract_text (message.get? "displayContent")
      if strTrim display = "" then extract_text (message.get? "content")
      else display
    if strTrim text = "" then none
    else some ⟨role, text⟩

/-- Message list of a gemini session document. -/
def extract_gemini_messages (doc : Json) : List ThreadMessage :=
  ((jarr doc "messages").getD []).filterMap geminiMessageOf

/-- Decoding outcome of one raw transcript line: blank after trimming,
decoded JSON, or a serde decode failure. -/
inductive RawLine where
  | blank
  | good (v : Json)
  | bad

/-- Raw file content, as seen by the two decoding strategies: the
line-by-line decode outcomes and the whole-document decode outcome. -/
structure RawDoc where
  lines : List RawLine
  whole : Option Json

/-- Per-line entry extraction dispatch (match in render.rs lines 105-111). -/
def providerLineEntry (p : ProviderKind) (v : Json) : Option TimelineEntry :=
  match p with
  | .amp => none
  | .codex => extract_codex_entry v
  | .claude => extract_claude_entry v
  | .gemini => none
  | .opencode => (extract_opencode_message v).map TimelineEntry.message

/-- Line-oriented extraction loop of extract_timeline_entries (render.rs
lines 88-118); `idx` is the 0-based index of the first remaining line. -/
def extractLines (p : ProviderKind) (path : String) :
    Nat → List RawLine → Except TurlError (List TimelineEntry)
  | _, [] => .ok []
  | idx, line :: rest =>
    match line with
    | .blank => extractLines p path (idx + 1) rest
    | .bad => .error (.invalidJsonLine path (idx + 1))
    | .good v =>
      match extractLines p path (idx + 1) rest with
      | .error e => .error e
      | .ok entries => .ok ((providerLineEntry p v).toList ++ entries)

/-- extract_timeline_entries (render.rs lines 74-119): single-document
providers (Amp, Gemini) decode the whole content; the rest decode line by
line. -/
def extract_timeline_entries (p : ProviderKind) (path : String) (doc : RawDoc) :
    Except TurlError (List TimelineEntry) :=
  if p = .amp then
    match doc.whole with
    | none => .error (.invalidJsonLine path 1)
    | some v => .ok ((extract_amp_messages v).map TimelineEntry.message)
  else if p = .gemini then
    match doc.whole with
    | none => .error (.invalidJsonLine path 1)
    | some v => .ok ((extract_gemini_messages v).map TimelineEntry.message)
  else extractLines p path 0 doc.lines

/-- extract_messages (render.rs lines 60-72). -/
def extract_messages (p : ProviderKind) (path : String) (doc : RawDoc) :
    Except TurlError (List ThreadMessage) :=
  (extract_timeline_entries p path doc).map fun entries =>
    entries.filterMap fun e =>
      match e with
      | .message m => some m
      | .compact _ => none

/-- Index of the first decode-failure line, if any. -/
def firstBadIdx : List RawLine → Option Nat
  | [] => none
  | .bad :: _ => some 0
  | _ :: rest => (firstBadIdx rest).map (· + 1)

/-! Section: xurl-core/src/service.rs: Codex subagent correlation -/

/-- SubagentLifecycleEvent. -/
structure SubagentLifecycleEvent where
  timestamp : Option String
  event : String
  detail : String
deriving DecidableEq, Repr

/-- AgentTimeline (service.rs lines 36-44). -/
structure AgentTimeline where
  events : List SubagentLifecycleEvent
  states : List String
  has_spawn : Bool
  has_activity : Bool
  last_update : Option String
deriving DecidableEq, Repr

/-- Default AgentTimeline. -/
def AgentTimeline.default : AgentTimeline := ⟨[], [], false, false, none⟩

/-- Pending-call table entry: (function name, decoded arguments, timestamp). -/
def CallInfo := String × Json × Option String

/-- State threaded through the single-pass replay of the parent rollout. -/
structure ReplayState where
  timelines : List (String × AgentTimeline)
  calls : List (String × CallInfo)
  warnings : List String

/-- Initial replay state. -/
def ReplayState.init : ReplayState := ⟨[], [], []⟩

/-- HashMap::insert on the pending-call table (replaces an existing key). -/
def insertCall (calls : List (String × CallInfo)) (k : String) (info : CallInfo) :
    List (String × CallInfo) :=
  (k, info) :: calls.filter (fun kv => kv.1 ≠ k)

/-- HashMap lookup on the pending-call table. -/
def lookupCall (calls : List (String × CallInfo)) (k : String) : Option CallInfo :=
  calls.lookup k

/-- HashMap::remove (drop the binding). -/
def eraseCall (calls : List (String × CallInfo)) (k : String) :
    List (String × CallInfo) :=
  calls.filter (fun kv => kv.1 ≠ k)

/-- Insert a key ordered by BTreeMap key order. -/
def insertSortedTimeline :
    List (String × AgentTimeline) → String → AgentTimeline →
    List (String × AgentTimeline)
  | [], k, t => [(k, t)]
  | (k', t') :: rest, k, t =>
    if k < k' then (k, t) :: (k', t') :: rest
    else (k', t') :: insertSortedTimeline rest k t

/-- BTreeMap::entry(k).or_default() followed by a mutation `f`. -/
def updateTimeline (tls : List (String × AgentTimeline)) (k : String)
    (f : AgentTimeline → AgentTimeline) : List (String × AgentTimeline) :=
  if tls.any (fun kv => kv.1 = k) then
    tls.map (fun kv => if kv.1 = k then (kv.1, f kv.2) else kv)
  else insertSortedTimeline tls k (f .default)

/-- infer_state_from_status_payload (service.rs lines 1100-1125). -/
def infer_state_from_status_payload (payload : Json) : Option String :=
  match payload.get? "status" with
  | none => none
  | some status =>
    match status with
    | .obj fields =>
      match fields.find? (fun kv =>
          kv.1 ∈ ["pendingInit", "running", "completed",
                  "errored", "shutdown", "notFound"]) with
      | some kv => some kv.1
      | none =>
        if fields.any (fun kv => kv.1 = "completed") then some "completed"
        else none
    | _ => none

/-- Interpretation of a completed call by function name (match in
service.rs lines 1001-1093). -/
def handleCall (st : ReplayState) (name : String) (args : Json)
    (timestamp : Option String) (outputValue : Json) : ReplayState :=
  if name = "spawn_agent" then
    match jstr outputValue "agent_id" with
    | none =>
      { st with warnings := st.warnings ++
          ["spawn_agent output did not include agent_id; skipping subagent mapping"] }
    | some agentId =>
      { st with timelines := updateTimeline st.timelines agentId (fun t =>
          { t with
            has_spawn := true
            has_activity := true
            last_update := timestamp
            events := t.events ++ [⟨timestamp, "spawn_agent", "subagent spawned"⟩] }) }
  else if name = "wait" then
    let ids := ((jarr args "ids").getD []).filterMap Json.asStr?
    let timedOut := (jbool outputValue "timed_out").getD false
    ids.foldl (fun st agentId =>
      { st with timelines := updateTimeline st.timelines agentId (fun t =>
          let t := { t with has_activity := true, last_update := timestamp }
          match infer_state_from_status_payload outputValue with
          | some state =>
            { t with
              states := t.states ++ [state]
              events := t.events ++ [⟨timestamp, "wait", "wait state=" ++ state⟩] }
          | none =>
            let t :=
              if timedOut then { t with states := t.states ++ ["running"] } else t
            { t with events := t.events ++
                [⟨timestamp, "wait",
                  if timedOut then "wait timed out" else "wait returned"⟩] }) }) st
  else if name = "send_input" || name = "resume_agent" || name = "close_agent" then
    match jstr args "id" with
    | none => st
    | some agentId =>
      { st with timelines := updateTimeline st.timelines agentId (fun t =>
          let t := { t with has_activity := true, last_update := timestamp }
          let t :=
            if name = "close_agent" then
              { t with states := t.states ++
                  [(infer_state_from_status_payload outputValue).getD "shutdown"] }
            else t
          { t with events := t.events ++ [⟨timestamp, name, "agent lifecycle event"⟩] }) }
  else st

/-- Loop body of parse_codex_parent_lifecycle (service.rs lines 919-1094)
for the line at 0-based index `idx`.  `decode` is the serde_json::from_str
oracle used for nested JSON strings (arguments and output fields). -/
def replayStep (decode : String → Option Json) (st : ReplayState) (idx : Nat) :
    RawLine → ReplayState
  | .blank => st
  | .bad =>
    { st with warnings := st.warnings ++
        ["failed to parse parent rollout line " ++ toString (idx + 1)] }
  | .good v =>
    if jstr v "type" ≠ some "response_item" then st
    else
      match v.get? "payload" with
      | none => st
      | some payload =>
        match jstr payload "type" with
        | none => st
        | some payloadType =>
          if payloadType = "function_call" then
            let callId := (jstr payload "call_id").getD ""
            if callId = "" then st
            else
              let name := (jstr payload "name").getD ""
              if name = "" then st
              else
                let args := (((jstr payload "arguments").bind decode).getD (.obj []))
                let timestamp := jstr v "timestamp"
                { st with calls := insertCall st.calls callId (name, args, timestamp) }
          else if payloadType ≠ "function_call_output" then st
          else
            match jstr payload "call_id" with
            | none => st
            | some callId =>
              match lookupCall st.calls callId with
              | none => st
              | some (name, args, timestamp) =>
                let st := { st with calls := eraseCall st.calls callId }
                let outputRaw := (jstr payload "output").getD ""
                let outputValue := (decode outputRaw).getD (.str outputRaw)
                handleCall st name args timestamp outputValue

/-- Fold of replayStep over the rollout lines with a running index. -/
def replayLines (decode : String → Option Json) :
    Nat → ReplayState → List RawLine → ReplayState
  | _, st, [] => st
  | idx, st, line :: rest =>
    replayLines decode (idx + 1) (replayStep decode st idx line) rest

/-- parse_codex_parent_lifecycle (service.rs lines 911-1097). -/
def parse_codex_parent_lifecycle (decode : String → Option Json)
    (lines : List RawLine) : ReplayState :=
  replayLines decode 0 .init lines

/-- infer_status_from_timeline (service.rs lines 1128-1156): returns
(status, status_source). -/
def infer_status_from_timeline (t : AgentTimeline) (childExists : Bool) :
    String × String :=
  if t.states.any (fun s => s = "errored") then ("errored", "parent_rollout")
  else if t.states.any (fun s => s = "shutdown") then ("shutdown", "parent_rollout")
  else if t.states.any (fun s => s = "completed") then ("completed", "parent_rollout")
  else if t.states.any (fun s => s = "running") || t.has_activity then
    ("running", "parent_rollout")
  else if t.has_spawn then ("pendingInit", "parent_rollout")
  else if childExists then ("running", "child_rollout")
  else ("notFound", "inferred")

/-- infer_status_for_detail (service.rs lines 1158-1172). -/
def infer_status_for_detail (t : AgentTimeline) (childStatus : Option String)
    (childExists : Bool) : String × String :=
  let (status, source) := infer_status_from_timeline t childExists
  if status = "notFound" then
    match childStatus with
    | some s => (s, "child_rollout")
    | none => (status, source)
  else (status, source)

/-- Spec-side precedence table for C2: ordered rules, highest first; the
first rule whose condition holds supplies the status, with the default
last.  Written from the spec sentence, to be compared with
infer_status_from_timeline. -/
def statusPrecedenceRules (t : AgentTimeline) (childExists : Bool) :
    List (Bool × (String × String)) :=
  [ (t.states.any (fun s => s = "errored"), ("errored", "parent_rollout")),
    (t.states.any (fun s => s = "shutdown"), ("shutdown", "parent_rollout")),
    (t.states.any (fun s => s = "completed"), ("completed", "parent_rollout")),
    (t.states.any (fun s => s = "running") || t.has_activity,
      ("running", "parent_rollout")),
    (t.has_spawn, ("pendingInit", "parent_rollout")),
    (childExists, ("running", "child_rollout")) ]

/-- First matching rule, else the default. -/
def firstMatch : List (Bool × (String × String)) → (String × String) → String × String
  | [], d => d
  | (c, r) :: rest, d => if c then r else firstMatch rest d

/-- SubagentThreadRef. -/
structure SubagentThreadRef where
  thread_id : String
  path : Option String
  last_updated_at : Option String
deriving DecidableEq, Repr

/-- SubagentListItem (the fields built by build_codex_list_view). -/
structure SubagentListItem where
  agent_id : String
  status : String
  status_source : String
  last_update : Option String
  relation_validated : Bool
  relation_evidence : List String
  child_thread : Option SubagentThreadRef
deriving DecidableEq, Repr

/-- build_codex_list_view (service.rs lines 687-736).  `resolveChild` is
the filesystem oracle standing for resolve_codex_child_thread: it returns
the child thread ref, the corroborating evidence list, and the child's
last timestamp. -/
def build_codex_list_view
    (resolveChild : String → Option (SubagentThreadRef × List String × Option String))
    (timelines : List (String × AgentTimeline)) : List SubagentListItem :=
  timelines.map fun kv =>
    let agentId := kv.1
    let timeline := kv.2
    let validated0 := timeline.has_spawn
    let evidence0 :=
      if timeline.has_spawn then ["parent rollout contains spawn_agent output"] else []
    let resolved := resolveChild agentId
    let childRef : Option SubagentThreadRef :=
      match resolved with
      | some (tref, _, _) => some tref
      | none => none
    let validated :=
      match resolved with
      | some (_, evidence, _) => validated0 || !evidence.isEmpty
      | none => validated0
    let evidence :=
      match resolved with
      | some (_, evidence, _) => evidence0 ++ evidence
      | none => evidence0
    let lastUpdate :=
      match resolved with
      | some (_, _, threadLastUpdate) =>
        match timeline.last_update with
        | some u => some u
        | none => threadLastUpdate
      | none => timeline.last_update
    let statusPair := infer_status_from_timeline timeline childRef.isSome
    { agent_id := agentId
      status := statusPair.1
      status_source := statusPair.2
      last_update := lastUpdate
      relation_validated := validated
      relation_evidence := evidence
      child_thread := childRef }

/-! Section: xurl-core/src/service.rs: Claude sidechain analysis -/

/-- ClaudeAgentRecord (the fields analyze_claude_agent_file returns that
the claims are about). -/
structure ClaudeAgentRecord where
  agent_id : String
  path : String
  status : String
  last_update : Option String
  relation_validated : Bool
  relation_evidence : List String
deriving DecidableEq, Repr

/-- Accumulated flags of the analyze_claude_agent_file scan. -/
structure ClaudeScan where
  agentId : Option String
  is_sidechain : Bool
  session_matches : Bool
  has_error : Bool
  has_assistant : Bool
  has_user : Bool
  last_update : Option String
deriving Repr

/-- Initial scan state. -/
def ClaudeScan.init : ClaudeScan := ⟨none, false, false, false, false, false, none⟩

/-- Option::is_none_or(Value::is_null) on a field lookup. -/
def isNoneOrNull : Option Json → Bool
  | none => true
  | some v => v.isNull

/-- Error indicator of one record: explicit error-message flag, or a
present non-null `error` field. -/
def claudeErrFlag (v : Json) : Bool :=
  (jbool v "isApiErrorMessage").getD false || !isNoneOrNull (v.get? "error")

/-- Loop body of the analyze_claude_agent_file scan (service.rs lines
1358-1415) at 0-based line index `idx`. -/
def claudeScanStep (sid : String) (st : ClaudeScan) (idx : Nat) :
    RawLine → ClaudeScan
  | .blank => st
  | .bad => st
  | .good v =>
    let st :=
      if idx = 0 then
        { st with
          agentId := jstr v "agentId"
          is_sidechain := (jbool v "isSidechain").getD false
          session_matches :=
            match jstr v "sessionId" with
            | some s => s = sid
            | none => false }
      else st
    let st :=
      match jstr v "timestamp" with
      | some ts => { st with last_update := some ts }
      | none => st
    let st := if claudeErrFlag v then { st with has_error := true } else st
    match jstr v "type" with
    | some kind =>
      { st with
        has_assistant := st.has_assistant || kind = "assistant"
        has_user := st.has_user || kind = "user" }
    | none => st

/-- Scan fold with a running line index. -/
def claudeScanLines (sid : String) : Nat → ClaudeScan → List RawLine → ClaudeScan
  | _, st, [] => st
  | idx, st, line :: rest =>
    claudeScanLines sid (idx + 1) (claudeScanStep sid st idx line) rest

/-- analyze_claude_agent_file (service.rs lines 1334-1473): returns a
record only for a valid sidechain file of the main session. -/
def analyze_claude_agent_file (path : String) (lines : List RawLine)
    (mainSessionId : String) : Option ClaudeAgentRecord :=
  let st := claudeScanLines mainSessionId 0 .init lines
  if !(st.is_sidechain && st.session_matches) then none
  else
    match st.agentId with
    | none => none
    | some agentId =>
      let status :=
        if st.has_error then "errored"
        else if st.has_assistant then "completed"
        else if st.has_user then "running"
        else "pendingInit"
      some
        { agent_id := agentId
          path := path
          status := status
          last_update := st.last_update
          relation_validated := true
          relation_evidence :=
            ["agent transcript is sidechain and sessionId matches main thread"] }

/-- Spec-side status of a Claude sidechain file, as a pure function of
content flags accumulated over the whole file (for C4). -/
def claudeStatusSpec (lines : List RawLine) : String :=
  let hasErr := lines.any fun l =>
    match l with | .good v => claudeErrFlag v | _ => false
  let hasAssistant := lines.any fun l =>
    match l with | .good v => jstr v "type" = some "assistant" | _ => false
  let hasUser := lines.any fun l =>
    match l with | .good v => jstr v "type" = some "user" | _ => false
  if hasErr then "errored"
  else if hasAssistant then "completed"
  else if hasUser then "running"
  else "pendingInit"

/-- Sidechain flag of a record (isSidechain, defaulting to false). -/
def sidechainFlag (v : Json) : Bool := (jbool v "isSidechain").getD false

/-- Session-match flag of a record against the main session id. -/
def sessionFlag (v : Json) (sid : String) : Bool :=
  match jstr v "sessionId" with
  | some s => s = sid
  | none => false

/-! Section: xurl-core/src/provider/mod.rs: active session listing -/

/-- ProviderKind of xurl-core (includes Pi). -/
inductive XProviderKind where
  | amp
  | codex
  | claude
  | gemini
  | opencode
  | pi
deriving DecidableEq, Repr

/-- ActiveSession. -/
structure ActiveSession where
  provider : XProviderKind
  session_id : String
  path : String
  mtime_epoch : Nat
  is_active : Bool
deriving DecidableEq, Repr

/-- Key equality on (provider, session_id). -/
def sameKey (a b : ActiveSession) : Bool :=
  a.provider = b.provider && a.session_id = b.session_id

/-- Dedup loop body (provider/mod.rs lines 169-179): on a duplicate key,
replace the kept entry when the new mtime is strictly greater; otherwise
append the new entry. -/
def dedupStep (acc : List ActiveSession) (s : ActiveSession) : List ActiveSession :=
  if acc.any (fun t => sameKey t s) then
    acc.map (fun t => if sameKey t s && s.mtime_epoch > t.mtime_epoch then s else t)
  else acc ++ [s]

/-- Deduplicate by (provider, session_id), keeping the most recent. -/
def dedupSessions (found : List ActiveSession) : List ActiveSession :=
  found.foldl dedupStep []

/-- Sort relation of the final sort_by (provider/mod.rs lines 182-187):
`a` may precede `b` when `a` is active and `b` is not, or both have the
same activity and `a`'s mtime is at least `b`'s (descending recency). -/
def sessionLe (a b : ActiveSession) : Prop :=
  (a.is_active = true ∧ b.is_active = false) ∨
    (a.is_active = b.is_active ∧ b.mtime_epoch ≤ a.mtime_epoch)

instance : DecidableRel sessionLe := fun a b => by
  unfold sessionLe; infer_instance

/-- list_active_sessions (provider/mod.rs lines 98-189), with the
filesystem scan abstracted into the `found` list of discovered session
files: deduplicate by key, then sort active-first and by recency. -/
def list_active_sessions (found : List ActiveSession) : List ActiveSession :=
  (dedupSessions found).insertionSort sessionLe

/-- Identity key of an active session. -/
def keyOf (s : ActiveSession) : XProviderKind × String := (s.provider, s.session_id)

/-! Section: Concrete inputs used by counterexamples and witnesses -/

/-- Parent-rollout line holding a spawn_agent function_call. -/
def mkSpawnCallLine (cid argsS : String) : Json :=
  .obj [("type", .str "response_item"),
        ("payload", .obj [("type", .str "function_call"),
                          ("call_id", .str cid),
                          ("name", .str "spawn_agent"),
                          ("arguments", .str argsS)])]

/-- Parent-rollout line holding a function_call_output. -/
def mkOutputLine (cid outS : String) : Json :=
  .obj [("type", .str "response_item"),
        ("payload", .obj [("type", .str "function_call_output"),
                          ("call_id", .str cid),
                          ("output", .str outS)])]

/-- Decode oracle of the C1 transcript: the spawn output string decodes to
an object carrying agent_id "A"; nothing else decodes. -/
def c1decode : String → Option Json := fun s =>
  if s = "outA" then some (.obj [("agent_id", .str "A")]) else none

/-- C1 transcript: exactly one spawn_agent call/output pair for agent "A"
and no other lifecycle-relevant events. -/
def c1transcript : List RawLine :=
  [.good (mkSpawnCallLine "c1" "argsX"), .good (mkOutputLine "c1" "outA")]

/-- C1 list view: correlation in list mode over the C1 transcript, with no
child rollout resolvable on disk. -/
def c1view : List SubagentListItem :=
  build_codex_list_view (fun _ => none)
    (parse_codex_parent_lifecycle c1decode c1transcript).timelines

/-- First record of the C3/C4 witness file: a sidechain record of the main
session with agent id "abc". -/
def c3firstRecord : Json :=
  .obj [("agentId", .str "abc"),
        ("isSidechain", .bool true),
        ("sessionId", .str "main-session")]

/-- Second record of the C3/C4 witness file: an assistant-typed record. -/
def c3assistantRecord : Json :=
  .obj [("type", .str "assistant")]

/-- C3/C4 witness file lines. -/
def c3lines : List RawLine :=
  [.good c3firstRecord, .good c3assistantRecord]

/-- C3 second-part witness: a file whose first record is not a sidechain. -/
def c3badFirst : Json :=
  .obj [("agentId", .str "abc"),
        ("isSidechain", .bool false),
        ("sessionId", .str "main-session")]

/-- C5 witness record: a Claude assistant record with plain text content. -/
def c5claudeRecord : Json :=
  .obj [("type", .str "assistant"),
        ("message", .obj [("role", .str "assistant"),
                          ("content", .str "hello world")])]

/-- C7 witness document: one good line followed by a decode failure. -/
def c7doc : RawDoc :=
  { lines := [.good (.obj [("type", .str "user")]), .bad], whole := none }

/-- C10 witness record: a function_call_output whose call id matches no
pending call. -/
def c10record : Json :=
  .obj [("type", .str "response_item"),
        ("payload", .obj [("type", .str "function_call_output"),
                          ("call_id", .str "orphan"),
                          ("output", .str "outX")])]

/-- C9 witness scan result: two files for the same (provider, session_id)
with different modification times, plus an unrelated active session. -/
def c9sessionOld : ActiveSession :=
  { provider := .claude, session_id := "s1", path := "p1"
    mtime_epoch := 100, is_active := false }

/-- Newer duplicate of `c9sessionOld`. -/
def c9sessionNew : ActiveSession :=
  { provider := .claude, session_id := "s1", path := "p2"
    mtime_epoch := 200, is_active := false }

/-- Unrelated active session. -/
def c9sessionActive : ActiveSession :=
  { provider := .codex, session_id := "s2", path := "p3"
    mtime_epoch := 150, is_active := true }

/-- C9 witness input list. -/
def c9found : List ActiveSession := [c9sessionOld, c9sessionNew, c9sessionActive]

/-- C8 witness input: a mixed-case codex UUID URI. -/
def c8input : String := "codex://019C871C-B1F9-7F60-9C4F-87ED09F13592"

/-- Parse result of the C8 witness input. -/
def c8uri : ThreadUri := ⟨.codex, "019c871c-b1f9-7f60-9c4f-87ed09f13592"⟩

/-- Invariant of the dedup loop relating the processed scan entries `p` to
the accumulator `a`: keys in `a` are unique, every kept entry is an on-disk
entry, every processed key is represented, and each kept entry's mtime
dominates all processed entries of its key. -/
def DedupInv (p a : List ActiveSession) : Prop :=
  a.Pairwise (fun x y => keyOf x ≠ keyOf y) ∧
  (∀ t ∈ a, t ∈ p) ∧
  (∀ s ∈ p, ∃ t ∈ a, keyOf t = keyOf s) ∧
  (∀ t ∈ a, ∀ s ∈ p, keyOf s = keyOf t → s.mtime_epoch ≤ t.mtime_epoch)

/-! Section: Theorems -/

/-- C2: the status inferred from a Codex agent timeline follows the spec's
precedence table, highest first: errored; else shutdown; else completed;
else running when a running state was recorded or any activity occurred;
else pendingInit when spawned; else running (status_source child_rollout)
when an independently resolved child thread exists; else notFound. -/
theorem c2_status_precedence (t : AgentTimeline) (childExists : Bool) :
    infer_status_from_timeline t childExists =
      firstMatch (statusPrecedenceRules t childExists) ("notFound", "inferred") := by
  rfl

/-- A tool-typed content item contributes no chunks. -/
theorem itemChunks_eq_nil_of_toolTyped (item : Json) (h : toolTyped item = true) :
    itemChunks item = [] := by
  cases item <;> simp_all [toolTyped, jstr, Json.get?, Json.asStr?,
    itemChunks, itemChunksFields]

/-- Dropping the tool-typed items of a content array leaves the extracted
chunks unchanged. -/
theorem chunksOfItems_filter_tool (items : List Json) :
    chunksOfItems (items.filter fun i => !toolTyped i) = chunksOfItems items := by
  induction items with
  | nil => rfl
  | cons i rest ih =>
    cases h : toolTyped i with
    | true =>
      simp [List.filter_cons, h, chunksOfItems, ih,
        itemChunks_eq_nil_of_toolTyped i h]
    | false => simp [List.filter_cons, h, chunksOfItems, ih]

/-- C6: items whose type is in the tool-type set contribute nothing to the
extracted message text, even interleaved with valid text items; the
remaining items are still concatenated — extracting from a content array
equals extracting from the same array with tool-typed items removed. -/
theorem c6_tool_items_excluded (items : List Json) :
    extract_text (some (.arr items)) =
      extract_text (some (.arr (items.filter fun i => !toolTyped i))) := by
  simp [extract_text, Json.asStr?, Json.asArr?, chunksOfItems_filter_tool]

/-- C10: a function_call_output whose call id matches no pending
function_call leaves the replay state entirely unchanged — no timeline,
no lifecycle event or state token, no warning. -/
theorem c10_unmatched_output_ignored (decode : String → Option Json)
    (st : ReplayState) (idx : Nat) (v payload : Json)
    (hty : jstr v "type" = some "response_item")
    (hp : v.get? "payload" = some payload)
    (hpt : jstr payload "type" = some "function_call_output")
    (hcid : ∀ cid, jstr payload "call_id" = some cid →
      lookupCall st.calls cid = none) :
    replayStep decode st idx (.good v) = st := by
  unfold replayStep
  cases hc : jstr payload "call_id" with
  | none => simp [hty, hp, hpt, hc]
  | some cid => simp [hty, hp, hpt, hc, hcid cid hc]

/-- C10 witness: the orphan function_call_output record is ignored on the
initial replay state. -/
theorem c10_unmatched_output_ignored_witness :
    replayStep c1decode .init 0 (.good c10record) = .init := by
  exact c10_unmatched_output_ignored c1decode .init 0 c10record
    (.obj [("type", .str "function_call_output"),
           ("call_id", .str "orphan"),
           ("output", .str "outX")])
    rfl rfl rfl
    (by intro cid hcid; cases hcid; rfl)

/-- Line-oriented extraction errors at the first decode-failure line, with
its 1-based number. -/
theorem extractLines_error_at_firstBad (p : ProviderKind) (path : String) :
    ∀ (lines : List RawLine) (n i : Nat), firstBadIdx lines = some i →
      extractLines p path n lines = .error (.invalidJsonLine path (n + i + 1)) := by
  intro lines
  induction lines with
  | nil => intro n i h; simp [firstBadIdx] at h
  | cons l rest ih =>
    intro n i h
    cases l with
    | bad =>
      have h0 : (0 : Nat) = i := by simpa [firstBadIdx] using h
      subst h0
      rfl
    | blank =>
      have h' : (firstBadIdx rest).map (· + 1) = some i := h
      obtain ⟨j, hj, hji⟩ := Option.map_eq_some'.mp h'
      have hr := ih (n + 1) j hj
      have hs : extractLines p path n (.blank :: rest) =
          extractLines p path (n + 1) rest := rfl
      rw [hs, hr]
      have : n + 1 + j + 1 = n + i + 1 := by omega
      rw [this]
    | good v =>
      have h' : (firstBadIdx rest).map (· + 1) = some i := h
      obtain ⟨j, hj, hji⟩ := Option.map_eq_some'.mp h'
      have hr := ih (n + 1) j hj
      have hs : extractLines p path n (.good v :: rest) =
          match extractLines p path (n + 1) rest with
          | .error e => .error e
          | .ok entries => .ok ((providerLineEntry p v).toList ++ entries) := rfl
      rw [hs, hr]
      have : n + 1 + j + 1 = n + i + 1 := by omega
      rw [this]

/-- C7: extraction is all-or-nothing per file — for line-oriented
providers any decode-failure line aborts extraction with InvalidJsonLine
carrying the path and the 1-based line number of the first such line, and
for the single-document providers Amp and Gemini a document decode failure
aborts with InvalidJsonLine at line 1. -/
theorem c7_all_or_nothing :
    (∀ (p : ProviderKind) (path : String) (doc : RawDoc) (i : Nat),
        p ≠ .amp → p ≠ .gemini → firstBadIdx doc.lines = some i →
        extract_timeline_entries p path doc =
          .error (.invalidJsonLine path (i + 1))) ∧
    (∀ (path : String) (doc : RawDoc), doc.whole = none →
        extract_timeline_entries .amp path doc =
          .error (.invalidJsonLine path 1)) ∧
    (∀ (path : String) (doc : RawDoc), doc.whole = none →
        extract_timeline_entries .gemini path doc =
          .error (.invalidJsonLine path 1)) := by
  refine ⟨?_, ?_, ?_⟩
  · intro p path doc i hamp hgem h
    have hr := extractLines_error_at_firstBad p path doc.lines 0 i h
    rw [extract_timeline_entries, if_neg hamp, if_neg hgem, hr]
    have : 0 + i + 1 = i + 1 := by omega
    rw [this]
  · intro path doc h
    rw [extract_timeline_entries, if_pos rfl, h]
  · intro path doc h
    rw [extract_timeline_entries]
    rw [if_neg (by decide : (ProviderKind.gemini : ProviderKind) ≠ .amp),
      if_pos rfl, h]

/-- C7 witness: a two-line claude file whose second line fails to decode
aborts with line number 2. -/
theorem c7_all_or_nothing_witness :
    extract_timeline_entries .claude "f" c7doc =
      .error (.invalidJsonLine "f" 2) := by
  exact c7_all_or_nothing.1 .claude "f" c7doc 1 (by decide) (by decide) rfl

/-- The scan step accumulates the error flag of the processed record. -/
theorem scanStep_has_error (sid : String) (st : ClaudeScan) (idx : Nat)
    (l : RawLine) :
    (claudeScanStep sid st idx l).has_error =
      (st.has_error ||
        match l with | .good v => claudeErrFlag v | _ => false) := by
  cases l with
  | blank => simp [claudeScanStep]
  | bad => simp [claudeScanStep]
  | good v =>
    simp only [claudeScanStep]
    by_cases h0 : idx = 0 <;> cases hts : jstr v "timestamp" <;>
      by_cases he : claudeErrFlag v <;> cases hk : jstr v "type" <;>
        simp [h0, hts, he, hk]

/-- The scan step accumulates the assistant flag of the processed record. -/
theorem scanStep_has_assistant (sid : String) (st : ClaudeScan) (idx : Nat)
    (l : RawLine) :
    (claudeScanStep sid st idx l).has_assistant =
      (st.has_assistant ||
        match l with
        | .good v => (jstr v "type" = some "assistant" : Bool)
        | _ => false) := by
  cases l with
  | blank => simp [claudeScanStep]
  | bad => simp [claudeScanStep]
  | good v =>
    simp only [claudeScanStep]
    by_cases h0 : idx = 0 <;> cases hts : jstr v "timestamp" <;>
      by_cases he : claudeErrFlag v <;> cases hk : jstr v "type" <;>
        simp [h0, hts, he, hk]

/-- The scan step accumulates the user flag of the processed record. -/
theorem scanStep_has_user (sid : String) (st : ClaudeScan) (idx : Nat)
    (l : RawLine) :
    (claudeScanStep sid st idx l).has_user =
      (st.has_user ||
        match l with
        | .good v => (jstr v "type" = some "user" : Bool)
        | _ => false) := by
  cases l with
  | blank => simp [claudeScanStep]
  | bad => simp [claudeScanStep]
  | good v =>
    simp only [claudeScanStep]
    by_cases h0 : idx = 0 <;> cases hts : jstr v "timestamp" <;>
      by_cases he : claudeErrFlag v <;> cases hk : jstr v "type" <;>
        simp [h0, hts, he, hk]

/-- The full scan's error flag is an any-fold over the file's records. -/
theorem scanLines_has_error (sid : String) :
    ∀ (lines : List RawLine) (n : Nat) (st : ClaudeScan),
      (claudeScanLines sid n st lines).has_error =
        (st.has_error || lines.any fun l =>
          match l with | .good v => claudeErrFlag v | _ => false) := by
  intro lines
  induction lines with
  | nil => intro n st; simp [claudeScanLines]
  | cons l rest ih =>
    intro n st
    rw [show claudeScanLines sid n st (l :: rest) =
        claudeScanLines sid (n + 1) (claudeScanStep sid st n l) rest from rfl]
    rw [ih, scanStep_has_error]
    cases l <;> simp [Bool.or_assoc]

/-- The full scan's assistant flag is an any-fold over the file's records. -/
theorem scanLines_has_assistant (sid : String) :
    ∀ (lines : List RawLine) (n : Nat) (st : ClaudeScan),
      (claudeScanLines sid n st lines).has_assistant =
        (st.has_assistant || lines.any fun l =>
          match l with
          | .good v => (jstr v "type" = some "assistant" : Bool)
          | _ => false) := by
  intro lines
  induction lines with
  | nil => intro n st; simp [claudeScanLines]
  | cons l rest ih =>
    intro n st
    rw [show claudeScanLines sid n st (l :: rest) =
        claudeScanLines sid (n + 1) (claudeScanStep sid st n l) rest from rfl]
    rw [ih, scanStep_has_assistant]
    cases l <;> simp [Bool.or_assoc]

/-- The full scan's user flag is an any-fold over the file's records. -/
theorem scanLines_has_user (sid : String) :
    ∀ (lines : List RawLine) (n : Nat) (st : ClaudeScan),
      (claudeScanLines sid n st lines).has_user =
        (st.has_user || lines.any fun l =>
          match l with
          | .good v => (jstr v "type" = some "user" : Bool)
          | _ => false) := by
  intro lines
  induction lines with
  | nil => intro n st; simp [claudeScanLines]
  | cons l rest ih =>
    intro n st
    rw [show claudeScanLines sid n st (l :: rest) =
        claudeScanLines sid (n + 1) (claudeScanStep sid st n l) rest from rfl]
    rw [ih, scanStep_has_user]
    cases l <;> simp [Bool.or_assoc]

/-- Past line 0, a scan step never touches the identity fields. -/
theorem scanStep_ident (sid : String) (st : ClaudeScan) (idx : Nat)
    (l : RawLine) (h : idx ≠ 0) :
    (claudeScanStep sid st idx l).is_sidechain = st.is_sidechain ∧
    (claudeScanStep sid st idx l).session_matches = st.session_matches ∧
    (claudeScanStep sid st idx l).agentId = st.agentId := by
  cases l with
  | blank => simp [claudeScanStep]
  | bad => simp [claudeScanStep]
  | good v =>
    simp only [claudeScanStep, if_neg h]
    cases hts : jstr v "timestamp" <;> by_cases he : claudeErrFlag v <;>
      cases hk : jstr v "type" <;> simp [hts, he, hk]

/-- Scanning from any non-zero starting index preserves the identity
fields. -/
theorem scanLines_ident (sid : String) :
    ∀ (lines : List RawLine) (n : Nat) (st : ClaudeScan), n ≠ 0 →
      (claudeScanLines sid n st lines).is_sidechain = st.is_sidechain ∧
      (claudeScanLines sid n st lines).session_matches = st.session_matches ∧
      (claudeScanLines sid n st lines).agentId = st.agentId := by
  intro lines
  induction lines with
  | nil => intro n st _; exact ⟨rfl, rfl, rfl⟩
  | cons l rest ih =>
    intro n st hn
    rw [show claudeScanLines sid n st (l :: rest) =
        claudeScanLines sid (n + 1) (claudeScanStep sid st n l) rest from rfl]
    obtain ⟨i1, i2, i3⟩ := ih (n + 1) (claudeScanStep sid st n l) (by omega)
    obtain ⟨s1, s2, s3⟩ := scanStep_ident sid st n l hn
    exact ⟨i1.trans s1, i2.trans s2, i3.trans s3⟩

/-- The scan step at line 0 installs the identity fields of the first
record. -/
theorem scanStep_zero_good (sid : String) (st : ClaudeScan) (v : Json) :
    (claudeScanStep sid st 0 (.good v)).is_sidechain = sidechainFlag v ∧
    (claudeScanStep sid st 0 (.good v)).session_matches = sessionFlag v sid ∧
    (claudeScanStep sid st 0 (.good v)).agentId = jstr v "agentId" := by
  simp only [claudeScanStep, if_pos rfl]
  cases hts : jstr v "timestamp" <;> by_cases he : claudeErrFlag v <;>
    cases hk : jstr v "type" <;>
      simp [hts, he, hk, sidechainFlag, sessionFlag]

/-- C3: a candidate Claude agent file contributes a subagent record only
if its first record is a sidechain record of the main session; a file
whose first record fails either condition is excluded entirely, whatever
its later content. -/
theorem c3_claude_candidate_validity :
    (∀ (path : String) (lines : List RawLine) (sid : String)
        (rec : ClaudeAgentRecord),
        analyze_claude_agent_file path lines sid = some rec →
        ∃ v, lines.head? = some (.good v) ∧
          sidechainFlag v = true ∧ sessionFlag v sid = true) ∧
    (∀ (path : String) (lines : List RawLine) (sid : String) (v : Json),
        lines.head? = some (.good v) →
        (sidechainFlag v = false ∨ sessionFlag v sid = false) →
        analyze_claude_agent_file path lines sid = none) := by
  constructor
  · intro path lines sid rec h
    unfold analyze_claude_agent_file at h
    by_cases hg : ((claudeScanLines sid 0 .init lines).is_sidechain &&
        (claudeScanLines sid 0 .init lines).session_matches) = true
    · cases lines with
      | nil => simp [claudeScanLines, ClaudeScan.init] at hg
      | cons l rest =>
        rw [show claudeScanLines sid 0 .init (l :: rest) =
            claudeScanLines sid 1 (claudeScanStep sid .init 0 l) rest
            from rfl] at hg
        obtain ⟨i1, i2, _⟩ :=
          scanLines_ident sid rest 1 (claudeScanStep sid .init 0 l) (by omega)
        rw [i1, i2] at hg
        cases l with
        | blank => simp [claudeScanStep, ClaudeScan.init] at hg
        | bad => simp [claudeScanStep, ClaudeScan.init] at hg
        | good v =>
          obtain ⟨z1, z2, _⟩ := scanStep_zero_good sid .init v
          rw [z1, z2] at hg
          obtain ⟨hb1, hb2⟩ := Bool.and_eq_true_iff.mp hg
          exact ⟨v, rfl, hb1, hb2⟩
    · rw [if_pos (by simp [hg])] at h
      exact absurd h (by simp)
  · intro path lines sid v hhead hbad
    cases lines with
    | nil => simp at hhead
    | cons l rest =>
      have hl : l = .good v := by
        simpa using hhead
      subst hl
      unfold analyze_claude_agent_file
      rw [show claudeScanLines sid 0 .init (.good v :: rest) =
          claudeScanLines sid 1 (claudeScanStep sid .init 0 (.good v)) rest
          from rfl]
      obtain ⟨i1, i2, _⟩ :=
        scanLines_ident sid rest 1 (claudeScanStep sid .init 0 (.good v)) (by omega)
      obtain ⟨z1, z2, _⟩ := scanStep_zero_good sid .init v
      rw [if_pos ?_]
      rw [i1, i2, z1, z2]
      rcases hbad with hb | hb <;> simp [hb]

/-- C3 witness: a valid sidechain file yields a record whose first line
carries both flags, and flipping isSidechain on the first line excludes
the file despite an assistant record later in it. -/
theorem c3_claude_candidate_validity_witness :
    (∃ v, c3lines.head? = some (.good v) ∧ sidechainFlag v = true ∧
       sessionFlag v "main-session" = true) ∧
    analyze_claude_agent_file "p" [.good c3badFirst, .good c3assistantRecord]
        "main-session" = none :=
  ⟨c3_claude_candidate_validity.1 "p" c3lines "main-session"
      ⟨"abc", "p", "completed", none, true,
        ["agent transcript is sidechain and sessionId matches main thread"]⟩ rfl,
   c3_claude_candidate_validity.2 "p" [.good c3badFirst, .good c3assistantRecord]
      "main-session" c3badFirst rfl (Or.inl rfl)⟩

/-- C4: the status of a valid Claude sidechain file is a pure function of
flags accumulated over the whole file: errored on any error indicator,
else completed on any assistant-typed record, else running on any
user-typed record, else pendingInit. -/
theorem c4_claude_status_from_flags (path : String) (lines : List RawLine)
    (sid : String) (rec : ClaudeAgentRecord)
    (h : analyze_claude_agent_file path lines sid = some rec) :
    rec.status = claudeStatusSpec lines := by
  unfold analyze_claude_agent_file at h
  by_cases hg : ((claudeScanLines sid 0 .init lines).is_sidechain &&
      (claudeScanLines sid 0 .init lines).session_matches) = true
  · rw [if_neg (by simp [hg])] at h
    cases ha : (claudeScanLines sid 0 .init lines).agentId with
    | none => rw [ha] at h; exact absurd h (by simp)
    | some aid =>
      rw [ha] at h
      have hrec := Option.some.inj h
      have hstat : rec.status =
          (if (claudeScanLines sid 0 .init lines).has_error then "errored"
           else if (claudeScanLines sid 0 .init lines).has_assistant then "completed"
           else if (claudeScanLines sid 0 .init lines).has_user then "running"
           else "pendingInit") := by
        rw [← hrec]
      rw [hstat, scanLines_has_error, scanLines_has_assistant, scanLines_has_user]
      simp only [ClaudeScan.init, Bool.false_or]
      rfl
  · rw [if_pos (by simp [hg])] at h
    exact absurd h (by simp)

/-- C4 witness: the valid sidechain file with an assistant record gets
status completed, matching the flag-derived spec status. -/
theorem c4_claude_status_from_flags_witness :
    ∃ rec : ClaudeAgentRecord,
      analyze_claude_agent_file "p" c3lines "main-session" = some rec ∧
      rec.status = claudeStatusSpec c3lines :=
  ⟨_, rfl, c4_claude_status_from_flags "p" c3lines "main-session" _ rfl⟩

/-- C1 counterexample: on a parent transcript with exactly one spawn_agent
call/output pair for agent "A" and nothing else, list-mode correlation
reports status running (spawn_agent sets has_activity, which outranks
pendingInit), not pendingInit as the claim states. -/
theorem c1_counterexample :
    (c1view.map fun i => (i.agent_id, i.status, i.status_source)) =
      [("A", "running", "parent_rollout")] ∧
    ¬ ∃ i ∈ c1view, i.status = "pendingInit" := by
  constructor
  · rfl
  · decide

/-- C1 (amended): for every parent transcript consisting of exactly one
spawn_agent call/output pair whose output carries agent_id `aid`, list
mode reports agent `aid` with status running and status_source
parent_rollout. -/
theorem c1_spawn_only_list_status (cid aid argsS outS : String)
    (decode : String → Option Json)
    (hcid : cid ≠ "")
    (hout : decode outS = some (.obj [("agent_id", .str aid)])) :
    (build_codex_list_view (fun _ => none)
        (parse_codex_parent_lifecycle decode
          [.good (mkSpawnCallLine cid argsS),
           .good (mkOutputLine cid outS)]).timelines).map
      (fun i => (i.agent_id, i.status, i.status_source)) =
      [(aid, "running", "parent_rollout")] := by
  have h1 : replayStep decode .init 0 (.good (mkSpawnCallLine cid argsS)) =
      { timelines := []
        calls := [(cid, ("spawn_agent", (decode argsS).getD (.obj []), none))]
        warnings := [] } := by
    unfold replayStep mkSpawnCallLine
    simp [jstr, Json.get?, Json.asStr?, List.lookup, insertCall, hcid,
      ReplayState.init]
  have h2 : replayStep decode
      { timelines := []
        calls := [(cid, ("spawn_agent", (decode argsS).getD (.obj []), none))]
        warnings := [] } 1 (.good (mkOutputLine cid outS)) =
      { timelines := [(aid,
          { events := [⟨none, "spawn_agent", "subagent spawned"⟩]
            states := []
            has_spawn := true
            has_activity := true
            last_update := none })]
        calls := []
        warnings := [] } := by
    unfold replayStep mkOutputLine
    simp [jstr, Json.get?, Json.asStr?, List.lookup, lookupCall, eraseCall,
      hout, handleCall, updateTimeline, insertSortedTimeline,
      AgentTimeline.default]
  have hrun : parse_codex_parent_lifecycle decode
      [.good (mkSpawnCallLine cid argsS), .good (mkOutputLine cid outS)] =
      { timelines := [(aid,
          { events := [⟨none, "spawn_agent", "subagent spawned"⟩]
            states := []
            has_spawn := true
            has_activity := true
            last_update := none })]
        calls := []
        warnings := [] } := by
    unfold parse_codex_parent_lifecycle
    rw [show replayLines decode 0 .init
        [.good (mkSpawnCallLine cid argsS), .good (mkOutputLine cid outS)] =
        replayStep decode
          (replayStep decode .init 0 (.good (mkSpawnCallLine cid argsS))) 1
          (.good (mkOutputLine cid outS)) from rfl]
    rw [h1]
    exact h2
  rw [hrun]
  simp [build_codex_list_view, infer_status_from_timeline]

/-- C1 witness: the amended statement at the concrete C1 transcript. -/
theorem c1_spawn_only_list_status_witness :
    (build_codex_list_view (fun _ => none)
        (parse_codex_parent_lifecycle c1decode
          [.good (mkSpawnCallLine "c1" "argsX"),
           .good (mkOutputLine "c1" "outA")]).timelines).map
      (fun i => (i.agent_id, i.status, i.status_source)) =
      [("A", "running", "parent_rollout")] :=
  c1_spawn_only_list_status "c1" "A" "argsX" "outA" c1decode
    (by decide) rfl

/-- Dropping a satisfying prefix does not change an all-elements bound. -/
theorem forall_mem_dropWhile_iff {α : Type} (p : α → Bool) :
    ∀ l : List α, (∀ x ∈ l.dropWhile p, p x = true) ↔ (∀ x ∈ l, p x = true) := by
  intro l
  induction l with
  | nil => simp
  | cons a l ih =>
    by_cases ha : p a = true
    · rw [List.dropWhile_cons_of_pos ha]
      simp [ih, ha]
    · rw [List.dropWhile_cons_of_neg ha]

/-- A trimmed string is empty exactly when every character is whitespace. -/
theorem strTrim_eq_empty_iff (s : String) :
    strTrim s = "" ↔ ∀ c ∈ s.data, isWs c = true := by
  have hmk : (strTrim s = "") ↔ trimChars s.data = [] := by
    constructor
    · intro h
      have := congrArg String.data h
      simpa [strTrim] using this
    · intro h
      show (⟨trimChars s.data⟩ : String) = ""
      rw [h]
  rw [hmk]
  unfold trimChars
  rw [List.reverse_eq_nil_iff, List.dropWhile_eq_nil_iff]
  constructor
  · intro h c hc
    have h' : ∀ x ∈ (s.data.dropWhile isWs), isWs x = true := by
      intro x hx
      exact h x (List.mem_reverse.mpr hx)
    exact (forall_mem_dropWhile_iff isWs s.data).mp h' c hc
  · intro h x hx
    exact h x (List.dropWhile_subset isWs (List.mem_reverse.mp hx))

/-- Trimming preserves the all-whitespace property in both directions. -/
theorem forall_ws_trimChars_iff (l : List Char) :
    (∀ c ∈ trimChars l, isWs c = true) ↔ (∀ c ∈ l, isWs c = true) := by
  unfold trimChars
  constructor
  · intro h c hc
    by_cases hdrop : ∀ x ∈ l.dropWhile isWs, isWs x = true
    · exact (forall_mem_dropWhile_iff isWs l).mp hdrop c hc
    · push_neg at hdrop
      obtain ⟨x, hx, hxw⟩ := hdrop
      by_cases hdrop2 : ∀ y ∈ (l.dropWhile isWs).reverse.dropWhile isWs,
          isWs y = true
      · have : ∀ y ∈ (l.dropWhile isWs).reverse, isWs y = true :=
          (forall_mem_dropWhile_iff isWs _).mp hdrop2
        exact absurd (this x (List.mem_reverse.mpr hx)) hxw
      · push_neg at hdrop2
        obtain ⟨y, hy, hyw⟩ := hdrop2
        exact absurd (h y (List.mem_reverse.mpr hy)) hyw
  · intro h c hc
    exact h c
      (List.dropWhile_subset isWs
        (List.mem_reverse.mp (List.dropWhile_subset isWs (List.mem_reverse.mp hc))))

/-- A string whose trim is non-empty keeps a non-whitespace character in
its trimmed form. -/
theorem exists_nonws_mem_trim {t : String} (h : strTrim t ≠ "") :
    ∃ c ∈ (strTrim t).data, isWs c = false := by
  by_contra h'
  push_neg at h'
  have hall : ∀ c ∈ trimChars t.data, isWs c = true := by
    intro c hc
    have := h' c hc
    cases hw : isWs c with
    | true => rfl
    | false => exact absurd hw this
  have : ∀ c ∈ t.data, isWs c = true := (forall_ws_trimChars_iff t.data).mp hall
  exact h ((strTrim_eq_empty_iff t).mpr this)

/-- Joining chunks whose head contains a non-whitespace character yields a
string with a non-empty trim. -/
theorem strTrim_joinSep_ne_empty (sep : String) (c : String) (cs : List String)
    (hc : ∃ x ∈ c.data, isWs x = false) :
    strTrim (joinSep sep (c :: cs)) ≠ "" := by
  obtain ⟨x, hx, hxw⟩ := hc
  intro h
  have hall := (strTrim_eq_empty_iff _).mp h
  have hxmem : x ∈ (joinSep sep (c :: cs)).data := by
    cases cs with
    | nil => exact hx
    | cons d ds =>
      show x ∈ (c ++ sep ++ joinSep sep (d :: ds)).data
      rw [String.data_append, String.data_append]
      exact List.mem_append_left _ (List.mem_append_left _ hx)
  have := hall x hxmem
  rw [hxw] at this
  exact Bool.false_ne_true this

/-- Every opencode part chunk is a non-blank trimmed text. -/
theorem opencode_chunks_shape :
    ∀ (parts : List Json) (c : String), c ∈ opencodePartChunks parts →
      ∃ t, c = strTrim t ∧ strTrim t ≠ "" := by
  intro parts
  induction parts with
  | nil => intro c hc; simp [opencodePartChunks] at hc
  | cons p rest ih =>
    intro c hc
    unfold opencodePartChunks at hc
    split at hc
    · exact ih c hc
    · split at hc
      · exact ih c hc
      · split at hc
        · split at hc
          · rcases List.mem_cons.mp hc with hhd | htl
            · exact ⟨_, hhd, by assumption⟩
            · exact ih c htl
          · exact ih c hc
        · exact ih c hc

/-- Emission gate of extract_codex_message: non-blank text, and the role
either parsed from the payload role string or forced assistant for an
agent_message event. -/
theorem codex_message_gate (v : Json) (m : ThreadMessage)
    (h : extract_codex_message v = some m) :
    strTrim m.text ≠ "" ∧
      ((∃ s, codexRoleStr v = some s ∧ parse_role s = some m.role) ∨
       (codexAgentMsg v = true ∧ m.role = .assistant)) := by
  unfold extract_codex_message at h
  cases hrt : jstr v "type" with
  | none => simp [hrt] at h
  | some recordType =>
    simp only [hrt] at h
    by_cases h1 : recordType = "response_item"
    · rw [if_pos h1] at h
      cases hp : v.get? "payload" with
      | none => simp [hp] at h
      | some payload =>
        simp only [hp] at h
        cases hpt : jstr payload "type" with
        | none => simp [hpt] at h
        | some payloadType =>
          simp only [hpt] at h
          by_cases h2 : payloadType ≠ "message"
          · rw [if_pos h2] at h; exact absurd h (by simp)
          · rw [if_neg h2] at h
            cases hr : jstr payload "role" with
            | none => simp [hr] at h
            | some roleStr =>
              simp only [hr] at h
              cases hpr : parse_role roleStr with
              | none => simp [hpr] at h
              | some role =>
                simp only [hpr] at h
                by_cases htext :
                    strTrim (extract_text (payload.get? "content")) = ""
                · rw [if_pos htext] at h; exact absurd h (by simp)
                · rw [if_neg htext] at h
                  rcases Option.some.inj h with rfl
                  refine ⟨htext, Or.inl ⟨roleStr, ?_, hpr⟩⟩
                  unfold codexRoleStr
                  rw [hrt, h1, if_pos rfl]
                  simp only [hp]
                  rw [hpt, not_ne_iff.mp h2, if_pos rfl]
                  exact hr
    · rw [if_neg h1] at h
      by_cases h3 : (recordType = "event_msg" &&
          ((v.get? "payload").bind (fun p => jstr p "type"))
            = some "agent_message") = true
      · rw [if_pos h3] at h
        by_cases htext : strTrim
            ((((v.get? "payload").bind (fun p => jstr p "message")).getD "")) = ""
        · rw [if_pos htext] at h; exact absurd h (by simp)
        · rw [if_neg htext] at h
          rcases Option.some.inj h with rfl
          obtain ⟨e1, e2⟩ := Bool.and_eq_true_iff.mp h3
          have he : recordType = "event_msg" := by simpa using e1
          have hi : ((v.get? "payload").bind (fun p => jstr p "type"))
              = some "agent_message" := by simpa using e2
          refine ⟨htext, Or.inr ⟨?_, rfl⟩⟩
          simp [codexAgentMsg, hrt, he, hi]
      · rw [if_neg h3] at h
        exact absurd h (by simp)

/-- Unrecognized payload role strings make extract_codex_message drop the
record. -/
theorem codex_message_role_drop (v : Json) (s : String)
    (hs : codexRoleStr v = some s) (hps : parse_role s = none) :
    extract_codex_message v = none := by
  unfold codexRoleStr at hs
  by_cases hc : jstr v "type" = some "response_item"
  · rw [if_pos hc] at hs
    cases hp : v.get? "payload" with
    | none => simp [hp] at hs
    | some payload =>
      simp only [hp] at hs
      by_cases hm : jstr payload "type" = some "message"
      · rw [if_pos hm] at hs
        unfold extract_codex_message
        rw [hc]
        simp only [if_pos rfl]
        simp only [hp]
        rw [hm]
        simp only [if_pos rfl]
        simp [hs, hps]
      · rw [if_neg hm] at hs; exact absurd hs (by simp)
  · rw [if_neg hc] at hs; exact absurd hs (by simp)

/-- Emission gate of extract_claude_message: non-blank text and a role
parsed from the message role string (or the record type fallback). -/
theorem claude_message_gate (v : Json) (m : ThreadMessage)
    (h : extract_claude_message v = some m) :
    strTrim m.text ≠ "" ∧
      ∃ s, claudeRoleStr v = some s ∧ parse_role s = some m.role := by
  unfold extract_claude_message at h
  cases hrt : jstr v "type" with
  | none => simp [hrt] at h
  | some recordType =>
    simp only [hrt] at h
    by_cases hknd : (recordType ≠ "user" && recordType ≠ "assistant") = true
    · rw [if_pos hknd] at h; exact absurd h (by simp)
    · rw [if_neg hknd] at h
      cases hm : v.get? "message" with
      | none => simp [hm] at h
      | some message =>
        simp only [hm] at h
        cases hrole : (jstr message "role").orElse (fun _ => some recordType) with
        | none => simp [hrole] at h
        | some roleStr =>
          simp only [hrole] at h
          cases hpr : parse_role roleStr with
          | none => simp [hpr] at h
          | some role =>
            simp only [hpr] at h
            by_cases htext : strTrim (extract_text (message.get? "content")) = ""
            · rw [if_pos htext] at h; exact absurd h (by simp)
            · rw [if_neg htext] at h
              rcases Option.some.inj h with rfl
              refine ⟨htext, roleStr, ?_, hpr⟩
              unfold claudeRoleStr
              rw [hrt]
              simp only [if_neg hknd, hm]
              exact hrole

/-- Unrecognized role strings make extract_claude_message drop the
record. -/
theorem claude_message_role_drop (v : Json) (s : String)
    (hs : claudeRoleStr v = some s) (hps : parse_role s = none) :
    extract_claude_message v = none := by
  unfold claudeRoleStr at hs
  cases hrt : jstr v "type" with
  | none => rw [hrt] at hs; exact absurd hs (by simp)
  | some recordType =>
    simp only [hrt] at hs
    by_cases hknd : (recordType ≠ "user" && recordType ≠ "assistant") = true
    · rw [if_pos hknd] at hs; exact absurd hs (by simp)
    · rw [if_neg hknd] at hs
      cases hm : v.get? "message" with
      | none => rw [hm] at hs; exact absurd hs (by simp)
      | some message =>
        simp only [hm] at hs
        unfold extract_claude_message
        rw [hrt]
        simp only [if_neg hknd, hm]
        rw [hs]
        simp [hps]

/-- Emission gate of extract_opencode_message: non-blank joined text and a
role parsed from the message role string. -/
theorem opencode_message_gate (v : Json) (m : ThreadMessage)
    (h : extract_opencode_message v = some m) :
    strTrim m.text ≠ "" ∧
      ∃ s, opencodeRoleStr v = some s ∧ parse_role s = some m.role := by
  unfold extract_opencode_message at h
  cases hrt : jstr v "type" with
  | none => simp [hrt] at h
  | some recordType =>
    simp only [hrt] at h
    by_cases hknd : recordType ≠ "message"
    · rw [if_pos hknd] at h; exact absurd h (by simp)
    · rw [if_neg hknd] at h
      cases hm : v.get? "message" with
      | none => simp [hm] at h
      | some message =>
        simp only [hm] at h
        cases hrole : jstr message "role" with
        | none => simp [hrole] at h
        | some roleStr =>
          simp only [hrole] at h
          cases hpr : parse_role roleStr with
          | none => simp [hpr] at h
          | some role =>
            simp only [hpr] at h
            by_cases hch : (opencodePartChunks ((jarr v "parts").getD [])).isEmpty
            · rw [if_pos hch] at h; exact absurd h (by simp)
            · rw [if_neg hch] at h
              rcases Option.some.inj h with rfl
              constructor
              · show strTrim (joinSep "\n\n"
                    (opencodePartChunks ((jarr v "parts").getD []))) ≠ ""
                cases hcs : opencodePartChunks ((jarr v "parts").getD []) with
                | nil => rw [hcs] at hch; exact absurd rfl hch
                | cons c cs =>
                  apply strTrim_joinSep_ne_empty
                  have hmem : c ∈ opencodePartChunks ((jarr v "parts").getD []) := by
                    rw [hcs]; exact List.mem_cons_self c cs
                  obtain ⟨t, hct, htne⟩ := opencode_chunks_shape _ c hmem
                  obtain ⟨x, hx, hxw⟩ := exists_nonws_mem_trim htne
                  exact ⟨x, by rw [hct]; exact hx, hxw⟩
              · refine ⟨roleStr, ?_, hpr⟩
                unfold opencodeRoleStr
                rw [if_pos (by rw [hrt, not_ne_iff.mp hknd])]
                simp only [hm]
                exact hrole

/-- Unrecognized role strings make extract_opencode_message drop the
record. -/
theorem opencode_message_role_drop (v : Json) (s : String)
    (hs : opencodeRoleStr v = some s) (hps : parse_role s = none) :
    extract_opencode_message v = none := by
  unfold opencodeRoleStr at hs
  by_cases hc : jstr v "type" = some "message"
  · rw [if_pos hc] at hs
    cases hm : v.get? "message" with
    | none => rw [hm] at hs; exact absurd hs (by simp)
    | some message =>
      simp only [hm] at hs
      have hs' : jstr message "role" = some s := hs
      unfold extract_opencode_message
      rw [hc]
      simp only [if_neg (by simp : ¬("message" ≠ "message")), hm]
      rw [hs']
      simp [hps]
  · rw [if_neg hc] at hs; exact absurd hs (by simp)

/-- Emission gate of an amp message: non-blank text and a parsed role. -/
theorem amp_message_gate (msg : Json) (m : ThreadMessage)
    (h : ampMessageOf msg = some m) :
    strTrim m.text ≠ "" ∧
      ∃ s, jstr msg "role" = some s ∧ parse_role s = some m.role := by
  unfold ampMessageOf at h
  cases hb : (jstr msg "role").bind parse_role with
  | none => simp [hb] at h
  | some role =>
    simp only [hb] at h
    by_cases htext : strTrim (extract_amp_text (msg.get? "content")) = ""
    · rw [if_pos htext] at h; exact absurd h (by simp)
    · rw [if_neg htext] at h
      rcases Option.some.inj h with rfl
      obtain ⟨s, hs, hps⟩ := Option.bind_eq_some.mp hb
      exact ⟨htext, s, hs, hps⟩

/-- Unrecognized role strings make the amp loop drop the message. -/
theorem amp_message_role_drop (msg : Json) (s : String)
    (hs : jstr msg "role" = some s) (hps : parse_role s = none) :
    ampMessageOf msg = none := by
  unfold ampMessageOf
  rw [hs]
  simp [hps]

/-- Emission gate of a gemini message: non-blank text and a role parsed by
the gemini role table. -/
theorem gemini_message_gate (msg : Json) (m : ThreadMessage)
    (h : geminiMessageOf msg = some m) :
    strTrim m.text ≠ "" ∧
      ∃ s, jstr msg "type" = some s ∧ parse_gemini_role s = some m.role := by
  unfold geminiMessageOf at h
  cases hb : (jstr msg "type").bind parse_gemini_role with
  | none => simp [hb] at h
  | some role =>
    simp only [hb] at h
    obtain ⟨s, hs, hps⟩ := Option.bind_eq_some.mp hb
    by_cases hd : strTrim (extract_text (msg.get? "displayContent")) = ""
    · simp only [if_pos hd] at h
      by_cases hc2 : strTrim (extract_text (msg.get? "content")) = ""
      · rw [if_pos hc2] at h; exact absurd h (by simp)
      · rw [if_neg hc2] at h
        rcases Option.some.inj h with rfl
        exact ⟨hc2, s, hs, hps⟩
    · simp only [if_neg hd] at h
      rcases Option.some.inj h with rfl
      exact ⟨hd, s, hs, hps⟩

/-- Unrecognized type strings make the gemini loop drop the message. -/
theorem gemini_message_role_drop (msg : Json) (s : String)
    (hs : jstr msg "type" = some s) (hps : parse_gemini_role s = none) :
    geminiMessageOf msg = none := by
  unfold geminiMessageOf
  rw [hs]
  simp [hps]

/-- C5: for every provider, a ThreadMessage is emitted only when the
record's role resolves through the fixed per-provider role table to User
or Assistant (codex additionally emits assistant text for agent_message
events) and the extracted text is non-empty after trimming; a record with
an unrecognized role string is silently dropped, never an error. -/
theorem c5_role_and_text_gating :
    (∀ v m, extract_codex_message v = some m →
       strTrim m.text ≠ "" ∧
         ((∃ s, codexRoleStr v = some s ∧ parse_role s = some m.role) ∨
          (codexAgentMsg v = true ∧ m.role = .assistant))) ∧
    (∀ v s, codexRoleStr v = some s → parse_role s = none →
       extract_codex_message v = none) ∧
    (∀ v m, extract_claude_message v = some m →
       strTrim m.text ≠ "" ∧
         ∃ s, claudeRoleStr v = some s ∧ parse_role s = some m.role) ∧
    (∀ v s, claudeRoleStr v = some s → parse_role s = none →
       extract_claude_message v = none) ∧
    (∀ v m, extract_opencode_message v = some m →
       strTrim m.text ≠ "" ∧
         ∃ s, opencodeRoleStr v = some s ∧ parse_role s = some m.role) ∧
    (∀ v s, opencodeRoleStr v = some s → parse_role s = none →
       extract_opencode_message v = none) ∧
    (∀ msg m, ampMessageOf msg = some m →
       strTrim m.text ≠ "" ∧
         ∃ s, jstr msg "role" = some s ∧ parse_role s = some m.role) ∧
    (∀ msg s, jstr msg "role" = some s → parse_role s = none →
       ampMessageOf msg = none) ∧
    (∀ msg m, geminiMessageOf msg = some m →
       strTrim m.text ≠ "" ∧
         ∃ s, jstr msg "type" = some s ∧ parse_gemini_role s = some m.role) ∧
    (∀ msg s, jstr msg "type" = some s → parse_gemini_role s = none →
       geminiMessageOf msg = none) :=
  ⟨codex_message_gate, codex_message_role_drop,
   claude_message_gate, claude_message_role_drop,
   opencode_message_gate, opencode_message_role_drop,
   amp_message_gate, amp_message_role_drop,
   gemini_message_gate, gemini_message_role_drop⟩

/-- C5 witness: the concrete Claude assistant record passes the gate. -/
theorem c5_role_and_text_gating_witness :
    strTrim (ThreadMessage.mk .assistant "hello world").text ≠ "" ∧
      ∃ s, claudeRoleStr c5claudeRecord = some s ∧
        parse_role s = some (ThreadMessage.mk .assistant "hello world").role :=
  c5_role_and_text_gating.2.2.1 c5claudeRecord
    (ThreadMessage.mk .assistant "hello world") rfl

/-- Lowercasing maps every hex digit into [0-9a-f]. -/
theorem hexlower_all : ∀ c ∈ hexDigits, isLowerHexDigit (asciiLowerChar c) = true := by
  decide

/-- chunkHex success is preserved by ASCII lowercasing. -/
theorem chunkHex_map_lower : ∀ (n : Nat) (l r : List Char), chunkHex n l = some r →
    chunkLowerHex n (l.map asciiLowerChar) = some (r.map asciiLowerChar) := by
  intro n
  induction n with
  | zero =>
    intro l r h
    have hlr : l = r := by simpa [chunkHex] using h
    subst hlr
    simp [chunkLowerHex]
  | succ n ih =>
    intro l r h
    cases l with
    | nil => simp [chunkHex] at h
    | cons c t =>
      unfold chunkHex at h
      by_cases hc : isHexDigit c = true
      · rw [if_pos hc] at h
        have hlow : isLowerHexDigit (asciiLowerChar c) = true :=
          hexlower_all c (of_decide_eq_true hc)
        simp only [List.map_cons]
        unfold chunkLowerHex
        rw [if_pos hlow]
        exact ih t r h
      · rw [if_neg hc] at h; exact absurd h (by simp)

/-- dashThen success is preserved by ASCII lowercasing. -/
theorem dashThen_map_lower (l r : List Char) (h : dashThen l = some r) :
    dashThen (l.map asciiLowerChar) = some (r.map asciiLowerChar) := by
  cases l with
  | nil => simp [dashThen] at h
  | cons c t =>
    have h' : (if c = '-' then some t else none) = some r := h
    by_cases hc : c = '-'
    · rw [if_pos hc] at h'
      rcases Option.some.inj h' with rfl
      subst hc
      simp only [List.map_cons]
      have hdl : asciiLowerChar '-' = '-' := by decide
      rw [hdl]
      rfl
    · rw [if_neg hc] at h'; exact absurd h' (by simp)

/-- hexRuns success is preserved by ASCII lowercasing. -/
theorem hexRuns_map_lower : ∀ (ns : List Nat) (l : List Char), hexRuns ns l = true →
    hexRunsLower ns (l.map asciiLowerChar) = true := by
  intro ns
  induction ns with
  | nil =>
    intro l h
    have hl : l = [] := by simpa [hexRuns, List.isEmpty_iff] using h
    subst hl
    simp [hexRunsLower]
  | cons n ns ih =>
    intro l h
    cases ns with
    | nil =>
      unfold hexRuns at h
      cases hch : chunkHex n l with
      | none => simp [hch] at h
      | some r =>
        simp only [hch] at h
        have h1 := chunkHex_map_lower n l r hch
        unfold hexRunsLower
        simp only [h1]
        have hr : r = [] := List.isEmpty_iff.mp h
        subst hr
        rfl
    | cons m rest =>
      unfold hexRuns at h
      cases hch : chunkHex n l with
      | none => simp [hch] at h
      | some r =>
        simp only [hch] at h
        cases hd : dashThen r with
        | none => simp [hd] at h
        | some r2 =>
          simp only [hd] at h
          have h1 := chunkHex_map_lower n l r hch
          have h2 := dashThen_map_lower r r2 hd
          unfold hexRunsLower
          simp only [h1, h2]
          exact ih r2 h

/-- Lowercasing a UUID-shaped string yields a lowercase UUID. -/
theorem uuidShaped_lower (s : String) (h : uuidShaped s = true) :
    lowerUuidShaped (asciiLower s) = true := by
  exact hexRuns_map_lower [8, 4, 4, 4, 12] s.data h

/-- C8: for every accepted input whose session identifier is UUID-shaped
(the codex/claude/gemini grammar), parse followed by as_string yields the
lowercase canonical URI form: the scheme, then `://`, then the
case-normalized (lowercased) session id. -/
theorem c8_parse_as_string_roundtrip (input : String) (u : ThreadUri)
    (h : threadUriFromStr input = .ok u)
    (hp : u.provider = .codex ∨ u.provider = .claude ∨ u.provider = .gemini) :
    ∃ scheme target, splitOnceStr "://" input = some (scheme, target) ∧
      scheme = u.provider.toStr ∧
      uuidShaped (grammarId u.provider target) = true ∧
      u.session_id = asciiLower (grammarId u.provider target) ∧
      lowerUuidShaped u.session_id = true ∧
      u.as_string = u.provider.toStr ++ "://" ++
        asciiLower (grammarId u.provider target) := by
  unfold threadUriFromStr at h
  cases hsp : splitOnceStr "://" input with
  | none => rw [hsp] at h; exact absurd h (by simp)
  | some st =>
    obtain ⟨scheme, target⟩ := st
    simp only [hsp] at h
    by_cases hs1 : scheme = "amp"
    · simp only [if_pos hs1] at h
      by_cases hshape : ampSessionShaped (grammarId ProviderKind.amp target) = true
      · rw [if_pos hshape] at h
        rcases Except.ok.inj h with rfl
        rcases hp with h' | h' | h' <;> exact absurd h' (by simp)
      · rw [if_neg hshape] at h; exact absurd h (by simp)
    · simp only [if_neg hs1] at h
      by_cases hs2 : scheme = "codex"
      · simp only [if_pos hs2] at h
        by_cases hshape : uuidShaped (grammarId ProviderKind.codex target) = true
        · rw [if_pos hshape] at h
          rcases Except.ok.inj h with rfl
          exact ⟨scheme, target, rfl, hs2, hshape, rfl,
            uuidShaped_lower _ hshape, rfl⟩
        · rw [if_neg hshape] at h; exact absurd h (by simp)
      · simp only [if_neg hs2] at h
        by_cases hs3 : scheme = "claude"
        · simp only [if_pos hs3] at h
          by_cases hshape : uuidShaped (grammarId ProviderKind.claude target) = true
          · rw [if_pos hshape] at h
            rcases Except.ok.inj h with rfl
            exact ⟨scheme, target, rfl, hs3, hshape, rfl,
              uuidShaped_lower _ hshape, rfl⟩
          · rw [if_neg hshape] at h; exact absurd h (by simp)
        · simp only [if_neg hs3] at h
          by_cases hs4 : scheme = "gemini"
          · simp only [if_pos hs4] at h
            by_cases hshape : uuidShaped (grammarId ProviderKind.gemini target) = true
            · rw [if_pos hshape] at h
              rcases Except.ok.inj h with rfl
              exact ⟨scheme, target, rfl, hs4, hshape, rfl,
                uuidShaped_lower _ hshape, rfl⟩
            · rw [if_neg hshape] at h; exact absurd h (by simp)
          · simp only [if_neg hs4] at h
            by_cases hs5 : scheme = "opencode"
            · simp only [if_pos hs5] at h
              by_cases hshape :
                  opencodeSessionShaped (grammarId ProviderKind.opencode target) = true
              · rw [if_pos hshape] at h
                rcases Except.ok.inj h with rfl
                rcases hp with h' | h' | h' <;> exact absurd h' (by simp)
              · rw [if_neg hshape] at h; exact absurd h (by simp)
            · simp only [if_neg hs5] at h
              exact absurd h (by simp)

/-- C8 witness: a mixed-case codex UUID URI parses and round-trips to the
lowercase canonical form. -/
theorem c8_parse_as_string_roundtrip_witness :
    ∃ scheme target, splitOnceStr "://" c8input = some (scheme, target) ∧
      scheme = c8uri.provider.toStr ∧
      uuidShaped (grammarId c8uri.provider target) = true ∧
      c8uri.session_id = asciiLower (grammarId c8uri.provider target) ∧
      lowerUuidShaped c8uri.session_id = true ∧
      c8uri.as_string = c8uri.provider.toStr ++ "://" ++
        asciiLower (grammarId c8uri.provider target) :=
  c8_parse_as_string_roundtrip c8input c8uri rfl (Or.inl rfl)

/-- sameKey agrees with key equality. -/
theorem sameKey_iff (a b : ActiveSession) :
    sameKey a b = true ↔ keyOf a = keyOf b := by
  simp [sameKey, keyOf, Prod.ext_iff]

/-- The replace-or-replace-nothing map of the dedup loop preserves keys. -/
theorem dedup_map_key (s t : ActiveSession) :
    keyOf (if sameKey t s && s.mtime_epoch > t.mtime_epoch then s else t) =
      keyOf t := by
  by_cases hc : (sameKey t s && s.mtime_epoch > t.mtime_epoch) = true
  · rw [if_pos hc]
    obtain ⟨hk, _⟩ := Bool.and_eq_true_iff.mp hc
    exact ((sameKey_iff t s).mp hk).symm
  · rw [if_neg hc]

/-- One dedup step preserves the dedup invariant. -/
theorem dedupStep_inv (p a : List ActiveSession) (s : ActiveSession)
    (h : DedupInv p a) : DedupInv (p ++ [s]) (dedupStep a s) := by
  obtain ⟨h1, h2, h3, h4⟩ := h
  unfold dedupStep
  by_cases hdup : a.any (fun t => sameKey t s) = true
  · rw [if_pos hdup]
    have hg : ∀ t, (if sameKey t s && s.mtime_epoch > t.mtime_epoch then s else t)
        = s ∨ (if sameKey t s && s.mtime_epoch > t.mtime_epoch then s else t) = t := by
      intro t
      by_cases hc : (sameKey t s && s.mtime_epoch > t.mtime_epoch) = true
      · left; rw [if_pos hc]
      · right; rw [if_neg hc]
    refine ⟨?_, ?_, ?_, ?_⟩
    · rw [List.pairwise_map]
      refine h1.imp_of_mem ?_
      intro x y _ _ hxy
      rw [dedup_map_key s x, dedup_map_key s y]
      exact hxy
    · intro t' ht'
      obtain ⟨t, ht, rfl⟩ := List.mem_map.mp ht'
      rcases hg t with he | he <;> rw [he]
      · exact List.mem_append_right _ (List.mem_singleton_self s)
      · exact List.mem_append_left _ (h2 t ht)
    · intro x hx
      rcases List.mem_append.mp hx with hxp | hxs
      · obtain ⟨t, ht, hk⟩ := h3 x hxp
        exact ⟨_, List.mem_map_of_mem _ ht, (dedup_map_key s t).trans hk⟩
      · obtain ⟨t0, ht0, hk0⟩ := List.any_eq_true.mp hdup
        rw [List.mem_singleton.mp hxs]
        exact ⟨_, List.mem_map_of_mem _ ht0,
          (dedup_map_key s t0).trans ((sameKey_iff t0 s).mp hk0)⟩
    · intro t' ht' x hx hk
      obtain ⟨t, ht, rfl⟩ := List.mem_map.mp ht'
      rw [dedup_map_key s t] at hk
      rcases List.mem_append.mp hx with hxp | hxs
      · have hle := h4 t ht x hxp hk
        by_cases hc : (sameKey t s && s.mtime_epoch > t.mtime_epoch) = true
        · rw [if_pos hc]
          obtain ⟨_, hm⟩ := Bool.and_eq_true_iff.mp hc
          have : t.mtime_epoch < s.mtime_epoch := by
            exact Nat.lt_of_lt_of_le (by simpa using hm) (Nat.le_refl _)
          omega
        · rw [if_neg hc]; exact hle
      · have hx' : x = s := List.mem_singleton.mp hxs
        subst hx'
        have hsk : sameKey t x = true := (sameKey_iff t x).mpr hk.symm
        by_cases hm : x.mtime_epoch > t.mtime_epoch
        · rw [if_pos (by simp [hsk, hm])]
        · rw [if_neg (by simp [hsk]; omega)]
          omega
  · rw [if_neg hdup]
    have hnone : ∀ t ∈ a, keyOf t ≠ keyOf s := by
      intro t ht hk
      have : a.any (fun t => sameKey t s) = true :=
        List.any_eq_true.mpr ⟨t, ht, (sameKey_iff t s).mpr hk⟩
      exact hdup this
    refine ⟨?_, ?_, ?_, ?_⟩
    · rw [List.pairwise_append]
      exact ⟨h1, List.pairwise_singleton _ _, by
        intro x hx y hy
        rw [List.mem_singleton.mp hy]
        exact hnone x hx⟩
    · intro t ht
      rcases List.mem_append.mp ht with hta | hts
      · exact List.mem_append_left _ (h2 t hta)
      · rw [List.mem_singleton.mp hts]
        exact List.mem_append_right _ (List.mem_singleton_self s)
    · intro x hx
      rcases List.mem_append.mp hx with hxp | hxs
      · obtain ⟨t, ht, hk⟩ := h3 x hxp
        exact ⟨t, List.mem_append_left _ ht, hk⟩
      · rw [List.mem_singleton.mp hxs]
        exact ⟨s, List.mem_append_right _ (List.mem_singleton_self s), rfl⟩
    · intro t ht x hx hk
      rcases List.mem_append.mp ht with hta | hts
      · rcases List.mem_append.mp hx with hxp | hxs
        · exact h4 t hta x hxp hk
        · rw [List.mem_singleton.mp hxs] at hk
          exact absurd hk.symm (hnone t hta)
      · rw [List.mem_singleton.mp hts] at hk ⊢
        rcases List.mem_append.mp hx with hxp | hxs
        · obtain ⟨t0, ht0, hk0⟩ := h3 x hxp
          exact absurd (hk0.trans hk) (hnone t0 ht0)
        · rw [List.mem_singleton.mp hxs]

/-- Folding the dedup step preserves the invariant over the processed
prefix. -/
theorem dedup_fold_inv : ∀ (rest p a : List ActiveSession), DedupInv p a →
    DedupInv (p ++ rest) (rest.foldl dedupStep a) := by
  intro rest
  induction rest with
  | nil => intro p a h; simpa using h
  | cons s rest ih =>
    intro p a h
    have hstep := dedupStep_inv p a s h
    have hrec := ih (p ++ [s]) (dedupStep a s) hstep
    simpa using hrec

/-- dedupSessions satisfies the dedup invariant against the full scan. -/
theorem dedup_inv (found : List ActiveSession) :
    DedupInv found (dedupSessions found) := by
  have h0 : DedupInv [] [] := ⟨List.Pairwise.nil, by simp, by simp, by simp⟩
  have := dedup_fold_inv found [] [] h0
  simpa [dedupSessions] using this

instance : IsTotal ActiveSession sessionLe := ⟨by
  intro a b
  unfold sessionLe
  cases ha : a.is_active <;> cases hb : b.is_active <;>
    rcases Nat.le_total b.mtime_epoch a.mtime_epoch with h | h <;>
      simp [ha, hb, h]⟩

instance : IsTrans ActiveSession sessionLe := ⟨by
  intro a b c hab hbc
  rcases hab with ⟨ha, hb⟩ | ⟨hab', hm1⟩ <;>
    rcases hbc with ⟨hb', hc⟩ | ⟨hbc', hm2⟩
  · rw [hb] at hb'; exact absurd hb' (by simp)
  · left; exact ⟨ha, hbc' ▸ hb⟩
  · left; exact ⟨hab'.trans hb', hc⟩
  · right; exact ⟨hab'.trans hbc', Nat.le_trans hm2 hm1⟩⟩

/-- C9: list_active_sessions never returns two entries sharing a
(provider, session_id) key; every returned entry is an on-disk entry;
every discovered key is represented; the kept entry's mtime dominates all
same-key entries; and the result is sorted active-first, then by mtime
descending. -/
theorem c9_list_active_sessions (found : List ActiveSession) :
    (list_active_sessions found).Pairwise (fun a b => keyOf a ≠ keyOf b) ∧
    (∀ t ∈ list_active_sessions found, t ∈ found) ∧
    (∀ s ∈ found, ∃ t ∈ list_active_sessions found, keyOf t = keyOf s) ∧
    (∀ t ∈ list_active_sessions found, ∀ s ∈ found,
       keyOf s = keyOf t → s.mtime_epoch ≤ t.mtime_epoch) ∧
    (list_active_sessions found).Sorted sessionLe := by
  obtain ⟨h1, h2, h3, h4⟩ := dedup_inv found
  have hperm : List.Perm (list_active_sessions found) (dedupSessions found) :=
    List.perm_insertionSort sessionLe (dedupSessions found)
  refine ⟨?_, ?_, ?_, ?_, ?_⟩
  · exact (List.Perm.pairwise_iff (fun hxy he => hxy he.symm) hperm).mpr h1
  · intro t ht
    exact h2 t (hperm.mem_iff.mp ht)
  · intro s hs
    obtain ⟨t, ht, hk⟩ := h3 s hs
    exact ⟨t, hperm.mem_iff.mpr ht, hk⟩
  · intro t ht s hs hk
    exact h4 t (hperm.mem_iff.mp ht) s hs hk
  · exact List.sorted_insertionSort sessionLe (dedupSessions found)

/-- C9 witness: on a scan with a duplicated key, the returned list still
represents the key and the older duplicate's mtime is dominated. -/
theorem c9_list_active_sessions_witness :
    ∃ t ∈ list_active_sessions c9found, keyOf t = keyOf c9sessionOld :=
  (c9_list_active_sessions c9found).2.2.1 c9sessionOld (by simp [c9found])

end Xurl
